import Mathlib

/-! Verification of the hello3dmcp frontend scene-control logic.

The definitions below are shallow embeddings of the JavaScript sources:
the coordinate conversions of CoordinateSystem.js, the area-light
operations of AreaLight.js, the camera controller of CameraController.js,
the scene-manager guards of SceneManager.js, the hover state machine of
InteractionModeManager.js / Application.js, and the remote command
dispatch of Application.js.

Real numbers stand for JavaScript floating point values. Math.atan2 is
embedded as the complex argument function, which agrees with atan2 on the
reals (range (-pi, pi], 0 at the origin, pi on the negative real axis).
The camera is represented by its forward and right basis vectors in world
space; in the source these are obtained by applying the camera quaternion
to (0,0,-1) and (1,0,0). String direction names ("north", "nw", ...) are
not modelled: every claim under study supplies numeric azimuths, and for
numeric input directionToAzimuthAngle reduces to wrapping into [0,360). -/

namespace Hello3D

noncomputable section

/-- Three-component vector over the reals, mirroring THREE.Vector3. -/
structure Vec3 where
  x : ℝ
  y : ℝ
  z : ℝ

/-- Componentwise vector addition (THREE.Vector3.add). -/
def vadd (a b : Vec3) : Vec3 := ⟨a.x + b.x, a.y + b.y, a.z + b.z⟩

/-- Componentwise vector subtraction (THREE.Vector3.sub). -/
def vsub (a b : Vec3) : Vec3 := ⟨a.x - b.x, a.y - b.y, a.z - b.z⟩

/-- Scalar multiplication (THREE.Vector3.multiplyScalar). -/
def vsmul (c : ℝ) (v : Vec3) : Vec3 := ⟨c * v.x, c * v.y, c * v.z⟩

/-- Dot product (THREE.Vector3.dot). -/
def vdot (a b : Vec3) : ℝ := a.x * b.x + a.y * b.y + a.z * b.z

/-- Vector length (THREE.Vector3.length). -/
def vlength (v : Vec3) : ℝ := Real.sqrt (vdot v v)

/-- THREE.Vector3.normalize divides by the length when it is nonzero and
by 1 (leaving the vector unchanged) when the length is zero. -/
def vnormalize (v : Vec3) : Vec3 :=
  if vlength v = 0 then v else vsmul (1 / vlength v) v

/-- The world up vector, always world Y (gravity) in CoordinateSystem.js. -/
def worldUp : Vec3 := ⟨0, 1, 0⟩

/-- THREE.MathUtils.degToRad. -/
def degToRad (d : ℝ) : ℝ := d * (Real.pi / 180)

/-- THREE.MathUtils.radToDeg. -/
def radToDeg (r : ℝ) : ℝ := r * (180 / Real.pi)

/-- Truncation toward zero, as used by the JavaScript remainder operator. -/
def jsTrunc (x : ℝ) : ℝ := if 0 ≤ x then ((⌊x⌋ : ℤ) : ℝ) else ((⌈x⌉ : ℤ) : ℝ)

/-- The JavaScript remainder operator a % b for finite operands. -/
def jsRem (a b : ℝ) : ℝ := a - b * jsTrunc (a / b)

/-- a % 360 in JavaScript. -/
def jsRem360 (a : ℝ) : ℝ := jsRem a 360

/-- The numeric branch of directionToAzimuthAngle in CoordinateSystem.js:
take the remainder modulo 360 and add 360 if the result is negative. -/
def wrapAzimuth (direction : ℝ) : ℝ :=
  let a := jsRem360 direction
  if a < 0 then a + 360 else a

/-- Math.atan2 y x, embedded as the argument of the complex number x + y i.
Both have range (-pi, pi], value 0 at the origin and pi on the negative
real half-axis, and agree everywhere on the reals. -/
def atan2 (y x : ℝ) : ℝ := Complex.arg ⟨x, y⟩

/-- Removal of the vertical component: v minus its projection on world up,
as computed in both conversion functions of CoordinateSystem.js. -/
def projectHorizontal (v : Vec3) : Vec3 :=
  vsub v (vsmul (vdot v worldUp) worldUp)

/-- The horizontal plane direction computed inside sphericalToCartesian:
blend forward and right by the azimuth, project onto the horizontal plane
and normalize; if that direction is negligible (length not above 1e-4),
fall back to the horizontal projection of forward, and failing that to the
horizontal projection of right. -/
def horizontalBasisDir (azimuthRad : ℝ) (forward right : Vec3) : Vec3 :=
  let horizontalDir :=
    vadd (vsmul (Real.cos azimuthRad) forward) (vsmul (Real.sin azimuthRad) right)
  let horizontalPlaneDir := projectHorizontal horizontalDir
  if vlength horizontalPlaneDir > 0.0001 then vnormalize horizontalPlaneDir
  else
    let forwardHorizontal := projectHorizontal forward
    if vlength forwardHorizontal > 0.0001 then vnormalize forwardHorizontal
    else vnormalize (projectHorizontal right)

/-- Blend a horizontal direction with world up by the elevation angle, as in
sphericalToCartesian: cos(elevation) * horizontal + sin(elevation) * up. -/
def elevDir (elevationRad : ℝ) (h : Vec3) : Vec3 :=
  vadd (vsmul (Real.cos elevationRad) h) (vsmul (Real.sin elevationRad) worldUp)

/-- sphericalToCartesian of CoordinateSystem.js, for numeric azimuth:
wrap the azimuth into [0,360), convert both angles to radians, build the
horizontal direction from the camera basis, blend with world up by the
elevation, normalize, and scale by the distance. -/
def sphericalToCartesian (azimuth elevation distance : ℝ) (forward right : Vec3) : Vec3 :=
  let azimuthRad := degToRad (wrapAzimuth azimuth)
  let elevationRad := degToRad elevation
  vsmul distance (vnormalize (elevDir elevationRad (horizontalBasisDir azimuthRad forward right)))

/-- A spherical-coordinate triple as returned by cartesianToSpherical. -/
structure Spherical where
  azimuth : ℝ
  elevation : ℝ
  distance : ℝ

/-- The clamp Math.max(-1, Math.min(1, v)) used before Math.asin. -/
def clamp1 (v : ℝ) : ℝ := max (-1) (min 1 v)

/-- The elevation computed by cartesianToSpherical from a unit direction. -/
def elevationOf (direction : Vec3) : ℝ :=
  radToDeg (Real.arcsin (clamp1 (vdot direction worldUp)))

/-- The azimuth computed by cartesianToSpherical from a unit direction:
project onto the horizontal plane; if the horizontal part is negligible the
azimuth is 0 by convention, otherwise take atan2 of the components along
camera right and camera forward and normalize into [0,360). -/
def azimuthOf (direction forward right : Vec3) : ℝ :=
  let horizontalDir := projectHorizontal direction
  if vlength horizontalDir > 0.0001 then
    let h := vnormalize horizontalDir
    let az := radToDeg (atan2 (vdot h right) (vdot h forward))
    if az < 0 then az + 360 else az
  else 0

/-- cartesianToSpherical of CoordinateSystem.js: positions closer to the
pivot than 1e-4 yield the default triple (0,0,0); otherwise elevation and
azimuth are read off the normalized direction. -/
def cartesianToSpherical (x y z : ℝ) (forward right : Vec3) : Spherical :=
  let position : Vec3 := ⟨x, y, z⟩
  if vlength position < 0.0001 then ⟨0, 0, 0⟩
  else
    ⟨azimuthOf (vnormalize position) forward right,
     elevationOf (vnormalize position),
     vlength position⟩

/-! ### Area light state (AreaLight.js)

The light rig stores the light position relative to the parent group that
sits at the model origin, the Euler rotation of that parent group, and the
orientation state produced by THREE lookAt calls. A lookAt call orients
the object from its current world position toward the given world point;
we record both the point and the world position from which it was aimed,
so that a stale orientation (position changed without re-aiming) is
observable in the model. -/

/-- The model origin (CONFIG.MODEL.ORIGIN), the pivot the lights rotate
around. -/
def modelOrigin : Vec3 := ⟨0, -0.5, 0⟩

/-- The configured target point of both lights (CONFIG.LIGHTING.*.TARGET). -/
def lightTarget : Vec3 := ⟨0, 0, 0⟩

/-- Rotation about the world X axis by an angle in radians. -/
def rotXApply (t : ℝ) (v : Vec3) : Vec3 :=
  ⟨v.x, Real.cos t * v.y - Real.sin t * v.z, Real.sin t * v.y + Real.cos t * v.z⟩

/-- Rotation about the world Y axis by an angle in radians. -/
def rotYApply (t : ℝ) (v : Vec3) : Vec3 :=
  ⟨Real.cos t * v.x + Real.sin t * v.z, v.y, -(Real.sin t) * v.x + Real.cos t * v.z⟩

/-- State of one AreaLight instance. -/
structure LightState where
  position : Vec3
  rotX : ℝ
  rotY : ℝ
  lookTarget : Vec3
  orientFrom : Vec3

/-- World position of the light: parent group at the model origin with
Euler rotation (rotX, rotY, 0) in XYZ order applied to the relative
position. -/
def lightWorldPosition (s : LightState) : Vec3 :=
  vadd modelOrigin (rotXApply s.rotX (rotYApply s.rotY s.position))

/-- A this.areaLight.lookAt(target) call: record the target point and the
world position from which the light was aimed at it. -/
def applyLookAt (s : LightState) : LightState :=
  { s with lookTarget := lightTarget, orientFrom := lightWorldPosition s }

/-- The light faces its configured target: the last lookAt aimed at the
configured target point from the current world position of the light. -/
def facesTarget (s : LightState) : Prop :=
  s.lookTarget = lightTarget ∧ s.orientFrom = lightWorldPosition s

/-- Key light as built by the AreaLight constructor: world position (5,3,5)
minus the origin gives the relative position (5, 3.5, 5), then lookAt. -/
def keyLightInitial : LightState :=
  applyLookAt ⟨⟨5, 3.5, 5⟩, 0, 0, ⟨0, 0, 0⟩, ⟨0, 0, 0⟩⟩

/-- Fill light as built by the AreaLight constructor: world position
(-5,2,5) minus the origin gives the relative position (-5, 2.5, 5). -/
def fillLightInitial : LightState :=
  applyLookAt ⟨⟨-5, 2.5, 5⟩, 0, 0, ⟨0, 0, 0⟩, ⟨0, 0, 0⟩⟩

/-- AreaLight.rotate: add the deltas to the parent group Euler angles, then
re-aim at the target. -/
def lightRotate (s : LightState) (deltaX deltaY : ℝ) : LightState :=
  applyLookAt { s with rotY := s.rotY + deltaX, rotX := s.rotX + deltaY }

/-- AreaLight.dolly: move along the radial direction from the origin to the
current position; if the current distance is not above 1e-4 the default
direction (0,0,1) is used. Ends with a lookAt at the target. -/
def lightDolly (s : LightState) (delta : ℝ) : LightState :=
  let currentPosition := s.position
  let currentDistance := vlength currentPosition
  let direction :=
    if currentDistance > 0.0001 then vnormalize currentPosition else (⟨0, 0, 1⟩ : Vec3)
  applyLookAt { s with position := vadd currentPosition (vsmul delta direction) }

/-- AreaLight.setPositionSpherical: keep the current distance (default 1.0
when the light sits at the origin, threshold 1e-4), recompute the Cartesian
position from the spherical coordinates, then lookAt the target. -/
def setPositionSpherical (s : LightState) (azimuth elevation : ℝ) (forward right : Vec3) :
    LightState :=
  let currentDistance := vlength s.position
  let distance := if currentDistance > 0.0001 then currentDistance else 1.0
  applyLookAt { s with position := sphericalToCartesian azimuth elevation distance forward right }

/-- AreaLight.getPositionSpherical: convert the position relative to the
parent group to camera-centric spherical coordinates. -/
def getPositionSpherical (s : LightState) (forward right : Vec3) : Spherical :=
  cartesianToSpherical s.position.x s.position.y s.position.z forward right

/-- AreaLight.rotateClockwise: decrease the azimuth by the given degrees
(JavaScript remainder of azimuth - degrees + 360 by 360) and reapply. -/
def rotateClockwise (s : LightState) (degrees : ℝ) (forward right : Vec3) : LightState :=
  let current := getPositionSpherical s forward right
  setPositionSpherical s (jsRem360 (current.azimuth - degrees + 360)) current.elevation
    forward right

/-- AreaLight.rotateCounterclockwise: increase the azimuth by the given
degrees modulo 360 and reapply. -/
def rotateCounterclockwise (s : LightState) (degrees : ℝ) (forward right : Vec3) : LightState :=
  let current := getPositionSpherical s forward right
  setPositionSpherical s (jsRem360 (current.azimuth + degrees)) current.elevation forward right

/-- AreaLight.nudgeElevationUp: raise the elevation, clamped to 90. -/
def nudgeElevationUp (s : LightState) (degrees : ℝ) (forward right : Vec3) : LightState :=
  let current := getPositionSpherical s forward right
  setPositionSpherical s current.azimuth (min 90 (current.elevation + degrees)) forward right

/-- AreaLight.nudgeElevationDown: lower the elevation, clamped to 0. -/
def nudgeElevationDown (s : LightState) (degrees : ℝ) (forward right : Vec3) : LightState :=
  let current := getPositionSpherical s forward right
  setPositionSpherical s current.azimuth (max 0 (current.elevation - degrees)) forward right

/-- Math.sign. -/
def jsSign (x : ℝ) : ℝ := if x < 0 then -1 else if x > 0 then 1 else 0

/-- The signed shortest angular distance computed in
AreaLight.moveTowardDirection: subtract, then shift by -360 when above 180
and by +360 when below -180. -/
def signedShortestDiff (target current : ℝ) : ℝ :=
  let d0 := target - current
  let d1 := if d0 > 180 then d0 - 360 else d0
  if d1 < -180 then d1 + 360 else d1

/-- The azimuth update in AreaLight.moveTowardDirection: move toward the
target by at most the given number of degrees, in the direction of the
signed shortest angular distance, then wrap into [0,360). -/
def moveTowardAzimuth (current target degrees : ℝ) : ℝ :=
  let diff := signedShortestDiff target current
  let moveAmount := jsSign diff * min |diff| degrees
  jsRem360 (current + moveAmount + 360)

/-- AreaLight.moveTowardDirection for a numeric target direction: wrap the
target, compute the azimuth update, and reapply through
setPositionSpherical. -/
def moveTowardDirection (s : LightState) (targetDirection degrees : ℝ) (forward right : Vec3) :
    LightState :=
  let targetAzimuthNum := wrapAzimuth targetDirection
  let current := getPositionSpherical s forward right
  setPositionSpherical s (moveTowardAzimuth current.azimuth targetAzimuthNum degrees)
    current.elevation forward right

/-- AreaLight.setDistance: read the current spherical coordinates, rebuild
the Cartesian position with the new distance, then lookAt the target. -/
def setDistance (s : LightState) (distance : ℝ) (forward right : Vec3) : LightState :=
  let current := getPositionSpherical s forward right
  let cartesian := sphericalToCartesian current.azimuth current.elevation distance forward right
  applyLookAt { s with position := cartesian }

/-- AreaLight.setPositionCartesian: set the relative position directly,
then lookAt the target. -/
def setPositionCartesian (s : LightState) (x y z : ℝ) : LightState :=
  applyLookAt { s with position := ⟨x, y, z⟩ }

/-- The forward vector of the application camera. The camera quaternion is
never changed by the application (only position.z and zoom are), so the
quaternion stays the identity and forward is (0,0,-1). -/
def camForward0 : Vec3 := ⟨0, 0, -1⟩

/-- The right vector of the application camera (identity quaternion applied
to (1,0,0)). -/
def camRight0 : Vec3 := ⟨1, 0, 0⟩

/-! ### Camera controller (CameraController.js, CONFIG.CAMERA) -/

/-- CONFIG.CAMERA.MIN_DISTANCE. -/
def minDistance : ℝ := 8

/-- CONFIG.CAMERA.MAX_DISTANCE. -/
def maxDistance : ℝ := 64

/-- CONFIG.CAMERA.FOV_MIN (bound on camera.zoom). -/
def minFOV : ℝ := 0.5

/-- CONFIG.CAMERA.FOV_MAX (bound on camera.zoom). -/
def maxFOV : ℝ := 5.0

/-- CONFIG.CAMERA.DOLLY_SPEED. -/
def dollySpeed : ℝ := 0.1

/-- CONFIG.CAMERA.FOV_SPEED. -/
def fovSpeed : ℝ := 0.02

/-- CONFIG.INTERACTION.PINCH_ZOOM_SENSITIVITY. -/
def pinchZoomSensitivity : ℝ := 0.01

/-- Mutable state of a CameraController: camera.position.z, camera.zoom,
and the two fields recorded at the start of a pinch gesture. -/
structure CameraState where
  z : ℝ
  zoom : ℝ
  initialPinchDistance : ℝ
  initialCameraDistance : ℝ

/-- CameraController right after construction: position.z is
CONFIG.CAMERA.INITIAL_DISTANCE = 32 and camera.zoom has the THREE default
value 1; initialCameraDistance starts at INITIAL_DISTANCE. -/
def camInitial : CameraState := ⟨32, 1, 0, 32⟩

/-- CameraController._clampDistance. -/
def clampDistance (value : ℝ) : ℝ := max minDistance (min maxDistance value)

/-- CameraController._clampFOV. -/
def clampFOV (value : ℝ) : ℝ := max minFOV (min maxFOV value)

/-- CameraController._applyDolly. -/
def applyDolly (s : CameraState) (dollyDelta : ℝ) : CameraState :=
  { s with z := clampDistance (s.z + dollyDelta) }

/-- CameraController._applyFOVChange. -/
def applyFOVChange (s : CameraState) (fovDelta : ℝ) : CameraState :=
  { s with zoom := clampFOV (s.zoom + fovDelta) }

/-- CameraController.handleWheel: plain scroll dollies by DOLLY_SPEED per
tick, scroll with shift changes the zoom by FOV_SPEED per tick. -/
def handleWheel (s : CameraState) (deltaY : ℝ) (isShiftPressed : Bool) : CameraState :=
  if isShiftPressed then
    applyFOVChange s (if deltaY > 0 then -fovSpeed else fovSpeed)
  else
    applyDolly s (if deltaY > 0 then dollySpeed else -dollySpeed)

/-- CameraController.startPinchZoom: record the distance between the two
touches and the current camera distance. -/
def startPinchZoom (s : CameraState) (x1 y1 x2 y2 : ℝ) : CameraState :=
  { s with initialPinchDistance := Real.sqrt ((x2 - x1) ^ 2 + (y2 - y1) ^ 2),
           initialCameraDistance := s.z }

/-- CameraController.updatePinchZoom: scale the pinch delta into a dolly
delta relative to the distance recorded at gesture start, clamped. -/
def updatePinchZoom (s : CameraState) (x1 y1 x2 y2 : ℝ) : CameraState :=
  let currentPinchDistance := Real.sqrt ((x2 - x1) ^ 2 + (y2 - y1) ^ 2)
  let dollyDelta := (s.initialPinchDistance - currentPinchDistance) * pinchZoomSensitivity
  { s with z := clampDistance (s.initialCameraDistance + dollyDelta) }

/-- CameraController.dollyCamera: set the distance, clamped. -/
def dollyCamera (s : CameraState) (distance : ℝ) : CameraState :=
  { s with z := clampDistance distance }

/-- CameraController.dollyCameraIn; a missing amount falls back to
DOLLY_SPEED. -/
def dollyCameraIn (s : CameraState) (amount : Option ℝ) : CameraState :=
  applyDolly s (match amount with | some a => -a | none => -dollySpeed)

/-- CameraController.dollyCameraOut; a missing amount falls back to
DOLLY_SPEED. -/
def dollyCameraOut (s : CameraState) (amount : Option ℝ) : CameraState :=
  applyDolly s (match amount with | some a => a | none => dollySpeed)

/-- CameraController.setCameraFOV: set camera.zoom, clamped. -/
def setCameraFOV (s : CameraState) (fov : ℝ) : CameraState :=
  { s with zoom := clampFOV fov }

/-- CameraController.increaseCameraFOV; a missing amount falls back to
FOV_SPEED. -/
def increaseCameraFOV (s : CameraState) (amount : Option ℝ) : CameraState :=
  applyFOVChange s (match amount with | some a => a | none => fovSpeed)

/-- CameraController.decreaseCameraFOV; a missing amount falls back to
FOV_SPEED. -/
def decreaseCameraFOV (s : CameraState) (amount : Option ℝ) : CameraState :=
  applyFOVChange s (match amount with | some a => -a | none => -fovSpeed)

/-- The public camera operations of CameraController (the wheel handler and
the pinch gesture included). -/
inductive CamOp where
  | dollyCamera (distance : ℝ)
  | dollyCameraIn (amount : Option ℝ)
  | dollyCameraOut (amount : Option ℝ)
  | setCameraFOV (fov : ℝ)
  | increaseCameraFOV (amount : Option ℝ)
  | decreaseCameraFOV (amount : Option ℝ)
  | wheel (deltaY : ℝ) (isShiftPressed : Bool)
  | pinchStart (x1 y1 x2 y2 : ℝ)
  | pinchUpdate (x1 y1 x2 y2 : ℝ)

/-- Apply one camera operation. -/
def applyCamOp (s : CameraState) : CamOp → CameraState
  | .dollyCamera d => dollyCamera s d
  | .dollyCameraIn a => dollyCameraIn s a
  | .dollyCameraOut a => dollyCameraOut s a
  | .setCameraFOV f => setCameraFOV s f
  | .increaseCameraFOV a => increaseCameraFOV s a
  | .decreaseCameraFOV a => decreaseCameraFOV s a
  | .wheel d sh => handleWheel s d sh
  | .pinchStart x1 y1 x2 y2 => startPinchZoom s x1 y1 x2 y2
  | .pinchUpdate x1 y1 x2 y2 => updatePinchZoom s x1 y1 x2 y2

/-- The camera state invariant claimed by the spec: distance within
[MIN_DISTANCE, MAX_DISTANCE] and zoom within [FOV_MIN, FOV_MAX]. -/
def camInvariant (s : CameraState) : Prop :=
  minDistance ≤ s.z ∧ s.z ≤ maxDistance ∧ minFOV ≤ s.zoom ∧ s.zoom ≤ maxFOV

/-! ### Interaction mode machine and hover update
(InteractionModeManager.js and Application._updateAreaLightHover) -/

/-- The two lights that own pick-proxy geometry. -/
inductive LightId where
  | key
  | fill
deriving DecidableEq

/-- The interaction modes of InteractionModeManager. -/
inductive InteractionMode where
  | MODEL_ROTATION
  | AREA_LIGHT_MANIPULATION
deriving DecidableEq

/-- The hover-relevant state of the Application: the current mode, the
currently hovered area light, and the visibility of the two highlight
overlays. -/
structure HoverState where
  mode : InteractionMode
  currentHoveredAreaLight : Option LightId
  keyHighlighted : Bool
  fillHighlighted : Bool
deriving DecidableEq

/-- Initial state: MODEL_ROTATION, no hovered light, overlays invisible. -/
def hoverInitial : HoverState := ⟨.MODEL_ROTATION, none, false, false⟩

/-- AreaLight.setHighlighted on the identified light. -/
def setHighlighted (s : HoverState) (l : LightId) (b : Bool) : HoverState :=
  match l with
  | .key => { s with keyHighlighted := b }
  | .fill => { s with fillHighlighted := b }

/-- Application._updateAreaLightHover, given the result of the pick-proxy
ray test (the ray cast itself is performed by the external THREE raycaster
and is abstracted by the optional hit). When the hover target changed, the
previous highlight is cleared, the new target (if any) is highlighted and
the mode is set accordingly; otherwise nothing is touched. -/
def updateAreaLightHover (s : HoverState) (hoveredAreaLight : Option LightId) : HoverState :=
  if hoveredAreaLight = s.currentHoveredAreaLight then s
  else
    let s1 := match s.currentHoveredAreaLight with
      | some l => setHighlighted s l false
      | none => s
    let s2 := match hoveredAreaLight with
      | some l => { setHighlighted s1 l true with mode := .AREA_LIGHT_MANIPULATION }
      | none => { s1 with mode := .MODEL_ROTATION }
    { s2 with currentHoveredAreaLight := hoveredAreaLight }

/-- The hover invariant: the mode is AREA_LIGHT_MANIPULATION exactly when a
light is hovered, and each highlight overlay is visible exactly when its
light is the hovered one. -/
def hoverInvariant (s : HoverState) : Prop :=
  (s.mode = .AREA_LIGHT_MANIPULATION ↔ s.currentHoveredAreaLight ≠ none) ∧
  (s.keyHighlighted = true ↔ s.currentHoveredAreaLight = some .key) ∧
  (s.fillHighlighted = true ↔ s.currentHoveredAreaLight = some .fill)

/-! ### Scene manager guards before full wiring (SceneManager.js)

SceneManager receives the canvas and the camera in its constructor; the
camera controller, rotation controller, model and lights are attached
later (initialize and the set...Controller calls from Application.init).
The camera control methods guard on this.camera but then call through
this.cameraController, so a missing controller is a thrown TypeError, not
a no-op; the light query methods guard on the light and the camera and
return the documented default. -/

/-- The SceneManager fields relevant to the pre-wiring guards. The camera
field records whether the camera reference is set (it is truthy from
construction on in Application.init). -/
structure SceneManagerState where
  camera : Bool
  cameraController : Option CameraState
  keyLight : Option LightState
  fillLight : Option LightState

/-- SceneManager as constructed by Application.init, before initialize and
setCameraController have run: camera present, everything else missing. -/
def smPreInit : SceneManagerState := ⟨true, none, none, none⟩

/-- SceneManager.dollyCamera: guarded by this.camera, then calls
this.cameraController.dollyCamera. When the controller is missing the
property access on undefined throws a TypeError. -/
def smDollyCamera (s : SceneManagerState) (distance : ℝ) : Except String SceneManagerState :=
  if s.camera then
    match s.cameraController with
    | some cc => .ok { s with cameraController := some (dollyCamera cc distance) }
    | none => .error "TypeError: this.cameraController is undefined"
  else .ok s

/-- SceneManager.getCameraDistance: guarded by this.camera, then reads
through this.cameraController; returns 0 when the camera is missing. -/
def smGetCameraDistance (s : SceneManagerState) : Except String ℝ :=
  if s.camera then
    match s.cameraController with
    | some cc => .ok cc.z
    | none => .error "TypeError: this.cameraController is undefined"
  else .ok 0

/-- SceneManager.getKeyLightPositionSpherical: returns the key light
position if both the light and the camera are present, and the documented
default triple (0,0,0) otherwise. -/
def smGetKeyLightPositionSpherical (s : SceneManagerState) : Spherical :=
  match s.keyLight with
  | some kl => if s.camera then getPositionSpherical kl camForward0 camRight0 else ⟨0, 0, 0⟩
  | none => ⟨0, 0, 0⟩

/-! ### Remote command dispatch (Application.js)

The application state bundles the scene state reachable from the command
handlers. The model rotation lives in RotationController.js, which is not
part of the sources under study; its Euler state and the relative nudges
are modelled from the spec (see the individual handlers). Colors are kept
as the raw strings carried by the commands; the conversion to THREE.Color
values is performed by the external engine. -/

/-- Per-light state as seen by the scene manager: the rig state plus
intensity, color and area size. -/
structure AreaLightFull where
  core : LightState
  intensity : ℝ
  color : String
  width : ℝ
  height : ℝ

/-- The application state reachable from the remote command handlers. -/
structure AppState where
  modelColor : String
  modelScale : Vec3
  modelRotation : Vec3
  background : String
  keyLight : AreaLightFull
  fillLight : AreaLightFull
  camera : CameraState

/-- A remote command: the type tag plus the fields used by the handlers.
Numeric fields default to 0 and are only read by the handler that knows
them. -/
structure Command where
  type : String
  color : String := ""
  size : ℝ := 0
  x : ℝ := 0
  y : ℝ := 0
  z : ℝ := 0
  intensity : ℝ := 0
  azimuth : ℝ := 0
  elevation : ℝ := 0
  fov : ℝ := 0
  distance : ℝ := 0
  degrees : ℝ := 0
  direction : ℝ := 0
  amount : Option ℝ := none
  width : ℝ := 0
  height : ℝ := 0
  toolName : String := ""

/-- Update the key light rig state. -/
def withKeyCore (s : AppState) (f : LightState → LightState) : AppState :=
  { s with keyLight := { s.keyLight with core := f s.keyLight.core } }

/-- Update the fill light rig state. -/
def withFillCore (s : AppState) (f : LightState → LightState) : AppState :=
  { s with fillLight := { s.fillLight with core := f s.fillLight.core } }

/-- Update the camera controller state. -/
def withCamera (s : AppState) (f : CameraState → CameraState) : AppState :=
  { s with camera := f s.camera }

/-- CONFIG.INTERACTION.AREA_LIGHT_SWING_AMOUNT in radians, as computed by
the SceneManager swing methods. -/
def swingAmountRadians : ℝ := degToRad 10

/-- CONFIG.INTERACTION.AREA_LIGHT_WALK_AMOUNT. -/
def walkAmount : ℝ := 1.0

/-- Modelled from the spec: RotationController.setRotationEuler (the
RotationController source is not among the files under study). The model
orientation is stored as Euler angles in degrees. -/
def rcSetRotationEuler (s : AppState) (x y z : ℝ) : AppState :=
  { s with modelRotation := ⟨x, y, z⟩ }

/-- Modelled from the spec: RotationController.rotateClockwise rotates the
model about the Y axis (yaw) relative to the current rotation; the sign
convention is chosen as decreasing yaw for clockwise. -/
def rcRotateClockwise (s : AppState) (degrees : ℝ) : AppState :=
  { s with modelRotation := ⟨s.modelRotation.x, s.modelRotation.y - degrees,
      s.modelRotation.z⟩ }

/-- Modelled from the spec: RotationController.rotateCounterclockwise. -/
def rcRotateCounterclockwise (s : AppState) (degrees : ℝ) : AppState :=
  { s with modelRotation := ⟨s.modelRotation.x, s.modelRotation.y + degrees,
      s.modelRotation.z⟩ }

/-- Modelled from the spec: RotationController.nudgePitchUp adjusts the
pitch (X axis) relative to the current rotation. -/
def rcNudgePitchUp (s : AppState) (degrees : ℝ) : AppState :=
  { s with modelRotation := ⟨s.modelRotation.x + degrees, s.modelRotation.y,
      s.modelRotation.z⟩ }

/-- Modelled from the spec: RotationController.nudgePitchDown. -/
def rcNudgePitchDown (s : AppState) (degrees : ℝ) : AppState :=
  { s with modelRotation := ⟨s.modelRotation.x - degrees, s.modelRotation.y,
      s.modelRotation.z⟩ }

/-- Modelled from the spec: RotationController.nudgeRoll adjusts the roll
(Z axis) relative to the current rotation. -/
def rcNudgeRoll (s : AppState) (degrees : ℝ) : AppState :=
  { s with modelRotation := ⟨s.modelRotation.x, s.modelRotation.y,
      s.modelRotation.z + degrees⟩ }

/-- The command handler table of Application._initCommandHandlers, in
source order. Each entry maps the command type string to its effect on the
application state; query handlers only log and leave the state unchanged.
The handlers reach the lights through the SceneManager methods, which pass
the application camera (identity orientation, hence camForward0 and
camRight0). -/
def commandHandlers : List (String × (AppState → Command → AppState)) :=
  [("toolCall", fun s _ => s),
   ("changeColor", fun s c => { s with modelColor := c.color }),
   ("changeSize", fun s c => { s with modelScale := ⟨c.size, c.size, c.size⟩ }),
   ("scaleModel", fun s c => { s with modelScale := ⟨c.x, c.y, c.z⟩ }),
   ("changeBackgroundColor", fun s c => { s with background := c.color }),
   ("getBackgroundColor", fun s _ => s),
   ("setKeyLightIntensity", fun s c =>
     { s with keyLight := { s.keyLight with intensity := c.intensity } }),
   ("setKeyLightColor", fun s c => { s with keyLight := { s.keyLight with color := c.color } }),
   ("swingKeyLightUp", fun s _ => withKeyCore s (fun l => lightRotate l 0 (-swingAmountRadians))),
   ("swingKeyLightDown", fun s _ => withKeyCore s (fun l => lightRotate l 0 swingAmountRadians)),
   ("swingKeyLightLeft", fun s _ =>
     withKeyCore s (fun l => lightRotate l (-swingAmountRadians) 0)),
   ("swingKeyLightRight", fun s _ => withKeyCore s (fun l => lightRotate l swingAmountRadians 0)),
   ("walkKeyLightIn", fun s _ => withKeyCore s (fun l => lightDolly l (-walkAmount))),
   ("walkKeyLightOut", fun s _ => withKeyCore s (fun l => lightDolly l walkAmount)),
   ("setKeyLightPositionSpherical", fun s c =>
     withKeyCore s (fun l => setPositionSpherical l c.azimuth c.elevation camForward0 camRight0)),
   ("getKeyLightPositionSpherical", fun s _ => s),
   ("getKeyLightIntensity", fun s _ => s),
   ("getKeyLightColor", fun s _ => s),
   ("getKeyLightSize", fun s _ => s),
   ("setFillLightIntensity", fun s c =>
     { s with fillLight := { s.fillLight with intensity := c.intensity } }),
   ("setFillLightColor", fun s c =>
     { s with fillLight := { s.fillLight with color := c.color } }),
   ("swingFillLightUp", fun s _ =>
     withFillCore s (fun l => lightRotate l 0 (-swingAmountRadians))),
   ("swingFillLightDown", fun s _ => withFillCore s (fun l => lightRotate l 0 swingAmountRadians)),
   ("swingFillLightLeft", fun s _ =>
     withFillCore s (fun l => lightRotate l (-swingAmountRadians) 0)),
   ("swingFillLightRight", fun s _ =>
     withFillCore s (fun l => lightRotate l swingAmountRadians 0)),
   ("walkFillLightIn", fun s _ => withFillCore s (fun l => lightDolly l (-walkAmount))),
   ("walkFillLightOut", fun s _ => withFillCore s (fun l => lightDolly l walkAmount)),
   ("setFillLightPositionSpherical", fun s c =>
     withFillCore s (fun l => setPositionSpherical l c.azimuth c.elevation camForward0 camRight0)),
   ("getFillLightPositionSpherical", fun s _ => s),
   ("getFillLightIntensity", fun s _ => s),
   ("getFillLightColor", fun s _ => s),
   ("getFillLightSize", fun s _ => s),
   ("dollyCamera", fun s c => withCamera s (fun cc => dollyCamera cc c.distance)),
   ("dollyCameraIn", fun s c => withCamera s (fun cc => dollyCameraIn cc c.amount)),
   ("dollyCameraOut", fun s c => withCamera s (fun cc => dollyCameraOut cc c.amount)),
   ("setCameraFOV", fun s c => withCamera s (fun cc => setCameraFOV cc c.fov)),
   ("increaseCameraFOV", fun s c => withCamera s (fun cc => increaseCameraFOV cc c.amount)),
   ("decreaseCameraFOV", fun s c => withCamera s (fun cc => decreaseCameraFOV cc c.amount)),
   ("getCameraDistance", fun s _ => s),
   ("getCameraFOV", fun s _ => s),
   ("getModelRotation", fun s _ => s),
   ("getModelColor", fun s _ => s),
   ("getModelScale", fun s _ => s),
   ("setModelRotation", fun s c => rcSetRotationEuler s c.x c.y c.z),
   ("rotateModelClockwise", fun s c => rcRotateClockwise s c.degrees),
   ("rotateModelCounterclockwise", fun s c => rcRotateCounterclockwise s c.degrees),
   ("nudgeModelPitchUp", fun s c => rcNudgePitchUp s c.degrees),
   ("nudgeModelPitchDown", fun s c => rcNudgePitchDown s c.degrees),
   ("nudgeModelRoll", fun s c => rcNudgeRoll s c.degrees),
   ("rotateKeyLightClockwise", fun s c =>
     withKeyCore s (fun l => rotateClockwise l c.degrees camForward0 camRight0)),
   ("rotateKeyLightCounterclockwise", fun s c =>
     withKeyCore s (fun l => rotateCounterclockwise l c.degrees camForward0 camRight0)),
   ("nudgeKeyLightElevationUp", fun s c =>
     withKeyCore s (fun l => nudgeElevationUp l c.degrees camForward0 camRight0)),
   ("nudgeKeyLightElevationDown", fun s c =>
     withKeyCore s (fun l => nudgeElevationDown l c.degrees camForward0 camRight0)),
   ("moveKeyLightTowardDirection", fun s c =>
     withKeyCore s (fun l => moveTowardDirection l c.direction c.degrees camForward0 camRight0)),
   ("rotateFillLightClockwise", fun s c =>
     withFillCore s (fun l => rotateClockwise l c.degrees camForward0 camRight0)),
   ("rotateFillLightCounterclockwise", fun s c =>
     withFillCore s (fun l => rotateCounterclockwise l c.degrees camForward0 camRight0)),
   ("nudgeFillLightElevationUp", fun s c =>
     withFillCore s (fun l => nudgeElevationUp l c.degrees camForward0 camRight0)),
   ("nudgeFillLightElevationDown", fun s c =>
     withFillCore s (fun l => nudgeElevationDown l c.degrees camForward0 camRight0)),
   ("moveFillLightTowardDirection", fun s c =>
     withFillCore s (fun l => moveTowardDirection l c.direction c.degrees camForward0 camRight0)),
   ("setKeyLightDistance", fun s c =>
     withKeyCore s (fun l => setDistance l c.distance camForward0 camRight0)),
   ("setFillLightDistance", fun s c =>
     withFillCore s (fun l => setDistance l c.distance camForward0 camRight0))]

/-- Per-light part of the outbound state snapshot. -/
structure LightSnapshot where
  intensity : ℝ
  color : String
  position : Spherical
  width : ℝ
  height : ℝ

/-- The full outbound state snapshot assembled by Application.getSceneState. -/
structure SceneSnapshot where
  modelColor : String
  modelScale : Vec3
  modelRotation : Vec3
  background : String
  keyLight : LightSnapshot
  fillLight : LightSnapshot
  cameraDistance : ℝ
  cameraFOV : ℝ

/-- Application.getSceneState: read every piece of scene state through the
SceneManager getters. -/
def getSceneState (s : AppState) : SceneSnapshot :=
  { modelColor := s.modelColor
    modelScale := s.modelScale
    modelRotation := s.modelRotation
    background := s.background
    keyLight :=
      { intensity := s.keyLight.intensity
        color := s.keyLight.color
        position := getPositionSpherical s.keyLight.core camForward0 camRight0
        width := s.keyLight.width
        height := s.keyLight.height }
    fillLight :=
      { intensity := s.fillLight.intensity
        color := s.fillLight.color
        position := getPositionSpherical s.fillLight.core camForward0 camRight0
        width := s.fillLight.width
        height := s.fillLight.height }
    cameraDistance := s.camera.z
    cameraFOV := s.camera.zoom }

/-- Application._handleWebSocketCommand: look the command type up in the
handler table; if found, run the handler and, unless the command is a
getter or the toolCall notification, emit a state snapshot; if not found,
log a warning and leave everything untouched. The function is total: the
unknown-command path returns normally, so no exception propagates. -/
def handleWebSocketCommand (s : AppState) (cmd : Command) :
    AppState × Option SceneSnapshot × List String :=
  let isGetterCommand := cmd.type.startsWith "get"
  let isToolCallNotification := cmd.type == "toolCall"
  match commandHandlers.lookup cmd.type with
  | some handler =>
    let s1 := handler s cmd
    if ¬isGetterCommand ∧ ¬isToolCallNotification then (s1, some (getSceneState s1), [])
    else (s1, none, [])
  | none => (s, none, ["Unknown command type: " ++ cmd.type])

/-- The position and orientation mutations exposed by AreaLight.js. The
camera argument of the spherical operations is carried inside the
operation. -/
inductive LightOp where
  | rotate (deltaX deltaY : ℝ)
  | dolly (delta : ℝ)
  | setSpherical (azimuth elevation : ℝ) (forward right : Vec3)
  | setDist (distance : ℝ) (forward right : Vec3)
  | setCartesian (x y z : ℝ)
  | rotateCW (degrees : ℝ) (forward right : Vec3)
  | rotateCCW (degrees : ℝ) (forward right : Vec3)
  | nudgeUp (degrees : ℝ) (forward right : Vec3)
  | nudgeDown (degrees : ℝ) (forward right : Vec3)
  | moveToward (target degrees : ℝ) (forward right : Vec3)

/-- Apply one light mutation. -/
def applyLightOp (s : LightState) : LightOp → LightState
  | .rotate dx dy => lightRotate s dx dy
  | .dolly d => lightDolly s d
  | .setSpherical az el f r => setPositionSpherical s az el f r
  | .setDist d f r => setDistance s d f r
  | .setCartesian x y z => setPositionCartesian s x y z
  | .rotateCW d f r => rotateClockwise s d f r
  | .rotateCCW d f r => rotateCounterclockwise s d f r
  | .nudgeUp d f r => nudgeElevationUp s d f r
  | .nudgeDown d f r => nudgeElevationDown s d f r
  | .moveToward t d f r => moveTowardDirection s t d f r

/-- The hover state fully determined by a hover test result: the mode is
AREA_LIGHT_MANIPULATION exactly on a hit, and exactly the hit light is
highlighted. -/
def hoverCanonical (h : Option LightId) : HoverState :=
  ⟨match h with
    | some _ => .AREA_LIGHT_MANIPULATION
    | none => .MODEL_ROTATION,
   h,
   match h with
    | some .key => true
    | _ => false,
   match h with
    | some .fill => true
    | _ => false⟩

/-- An orthonormal pair of camera basis vectors. The source obtains
forward and right by applying the camera quaternion to (0,0,-1) and
(1,0,0), so any camera orientation yields such a pair. -/
def orthonormalBasis (f r : Vec3) : Prop :=
  vdot f f = 1 ∧ vdot r r = 1 ∧ vdot f r = 0

/-- A level camera basis: orthonormal with horizontal forward and right
vectors (no camera pitch or roll). -/
def levelBasis (f r : Vec3) : Prop :=
  orthonormalBasis f r ∧ f.y = 0 ∧ r.y = 0

/-! ### Sample states used by the witnesses -/

/-- A light state sitting exactly at the pivot. -/
def lightAtPivot : LightState := applyLookAt ⟨⟨0, 0, 0⟩, 0, 0, ⟨0, 0, 0⟩, ⟨0, 0, 0⟩⟩

/-- A light state at distance 2 along the x axis. -/
def lightAtX2 : LightState := applyLookAt ⟨⟨2, 0, 0⟩, 0, 0, ⟨0, 0, 0⟩, ⟨0, 0, 0⟩⟩

/-- A light state at distance 2 along the negative z axis. -/
def lightAtZ2 : LightState := applyLookAt ⟨⟨0, 0, 2⟩, 0, 0, ⟨0, 0, 0⟩, ⟨0, 0, 0⟩⟩

/-- A light state at azimuth 190, elevation 0, distance 5 relative to the
application camera. -/
def lightAz190 : LightState :=
  applyLookAt ⟨sphericalToCartesian 190 0 5 camForward0 camRight0, 0, 0, ⟨0, 0, 0⟩, ⟨0, 0, 0⟩⟩

/-- A sample application state for the dispatch witnesses. -/
def appSample : AppState :=
  { modelColor := "#808080"
    modelScale := ⟨1, 1, 1⟩
    modelRotation := ⟨0, 0, 0⟩
    background := "#000000"
    keyLight := { core := keyLightInitial, intensity := 2.5, color := "#ffffff",
                  width := 6, height := 6 }
    fillLight := { core := fillLightInitial, intensity := 0.2, color := "#ffffff",
                   width := 8, height := 8 }
    camera := camInitial }

/-! ## Basic vector lemmas -/

theorem vdot_self_nonneg (v : Vec3) : 0 ≤ vdot v v := by
  unfold vdot; nlinarith [sq_nonneg v.x, sq_nonneg v.y, sq_nonneg v.z]

theorem vlength_nonneg (v : Vec3) : 0 ≤ vlength v := Real.sqrt_nonneg _

theorem vlength_sq (v : Vec3) : vlength v ^ 2 = vdot v v :=
  Real.sq_sqrt (vdot_self_nonneg v)

theorem vdot_self_of_vlength_one (v : Vec3) (h : vlength v = 1) : vdot v v = 1 := by
  have h2 := vlength_sq v
  rw [h] at h2
  linarith

theorem vlength_eq_zero_iff (v : Vec3) : vlength v = 0 ↔ vdot v v = 0 := by
  unfold vlength
  exact Real.sqrt_eq_zero (vdot_self_nonneg v)

theorem vlength_smul (c : ℝ) (v : Vec3) : vlength (vsmul c v) = |c| * vlength v := by
  unfold vlength vsmul vdot
  simp only
  rw [show c * v.x * (c * v.x) + c * v.y * (c * v.y) + c * v.z * (c * v.z)
        = c ^ 2 * (v.x * v.x + v.y * v.y + v.z * v.z) by ring,
    Real.sqrt_mul (sq_nonneg c), Real.sqrt_sq_eq_abs]

theorem vsmul_one (v : Vec3) : vsmul 1 v = v := by
  unfold vsmul; cases v; simp

theorem vsmul_vsmul (a b : ℝ) (v : Vec3) : vsmul a (vsmul b v) = vsmul (a * b) v := by
  unfold vsmul; cases v; simp [mul_assoc]

theorem vnormalize_of_vlength_one (v : Vec3) (h : vlength v = 1) : vnormalize v = v := by
  unfold vnormalize
  rw [h]
  norm_num [vsmul_one]

theorem vlength_vnormalize (v : Vec3) (h : vlength v ≠ 0) : vlength (vnormalize v) = 1 := by
  have hpos : 0 < vlength v := lt_of_le_of_ne (vlength_nonneg v) (Ne.symm h)
  unfold vnormalize
  rw [if_neg h, vlength_smul, abs_of_pos (one_div_pos.mpr hpos), one_div,
    inv_mul_cancel₀ h]

theorem vnormalize_y_eq_zero (v : Vec3) (h : v.y = 0) : (vnormalize v).y = 0 := by
  unfold vnormalize vsmul
  split
  · exact h
  · simp [h]

theorem vnormalize_smul_pos (c : ℝ) (hc : 0 < c) (v : Vec3) :
    vnormalize (vsmul c v) = vnormalize v := by
  unfold vnormalize
  rw [vlength_smul, abs_of_pos hc]
  by_cases h : vlength v = 0
  · rw [h, mul_zero, if_pos rfl, if_pos rfl]
    unfold vsmul
    cases v with
    | mk x y z =>
      have hx := (vlength_eq_zero_iff _).mp h
      unfold vdot at hx
      simp only at hx
      have h1 : x = 0 := by nlinarith [sq_nonneg x, sq_nonneg y, sq_nonneg z]
      have h2 : y = 0 := by nlinarith [sq_nonneg x, sq_nonneg y, sq_nonneg z]
      have h3 : z = 0 := by nlinarith [sq_nonneg x, sq_nonneg y, sq_nonneg z]
      simp [h1, h2, h3]
  · have hcl : c * vlength v ≠ 0 := mul_ne_zero (ne_of_gt hc) h
    rw [if_neg hcl, if_neg h, vsmul_vsmul]
    congr 1
    field_simp

theorem projectHorizontal_eq (v : Vec3) : projectHorizontal v = ⟨v.x, 0, v.z⟩ := by
  unfold projectHorizontal vsub vsmul vdot worldUp
  simp

theorem projectHorizontal_of_y_zero (v : Vec3) (h : v.y = 0) : projectHorizontal v = v := by
  rw [projectHorizontal_eq]
  cases v
  simp only at h
  simp [h]

/-! ## The horizontal direction built by sphericalToCartesian -/

theorem horizontalBasisDir_spec (f r : Vec3) (hb : orthonormalBasis f r) (θ : ℝ) :
    vlength (horizontalBasisDir θ f r) = 1 ∧ (horizontalBasisDir θ f r).y = 0 := by
  obtain ⟨hf, hr, hfr⟩ := hb
  unfold horizontalBasisDir
  simp only
  split_ifs with h1 h2
  · have hne : vlength (projectHorizontal
        (vadd (vsmul (Real.cos θ) f) (vsmul (Real.sin θ) r))) ≠ 0 :=
      ne_of_gt (lt_trans (by norm_num) h1)
    exact ⟨vlength_vnormalize _ hne,
      vnormalize_y_eq_zero _ (by rw [projectHorizontal_eq])⟩
  · have hne : vlength (projectHorizontal f) ≠ 0 := ne_of_gt (lt_trans (by norm_num) h2)
    exact ⟨vlength_vnormalize _ hne,
      vnormalize_y_eq_zero _ (by rw [projectHorizontal_eq])⟩
  · have hne : vlength (projectHorizontal r) ≠ 0 := by
      intro h0
      rw [projectHorizontal_eq] at h0
      have hdd := (vlength_eq_zero_iff _).mp h0
      unfold vdot at hdd hf hr hfr
      simp only at hdd
      have hrx : r.x = 0 := by nlinarith [sq_nonneg r.x, sq_nonneg r.z]
      have hrz : r.z = 0 := by nlinarith [sq_nonneg r.x, sq_nonneg r.z]
      have hry : r.y * r.y = 1 := by nlinarith
      have hfy : f.y = 0 := by
        have hmul : f.y * r.y = 0 := by
          rw [hrx, hrz] at hfr
          linarith [hfr]
        rcases mul_eq_zero.mp hmul with h | h
        · exact h
        · rw [h] at hry; norm_num at hry
      have hlen1 : vlength (projectHorizontal f) = 1 := by
        rw [projectHorizontal_eq]
        unfold vlength vdot
        simp only
        rw [show f.x * f.x + 0 * 0 + f.z * f.z = 1 by nlinarith]
        exact Real.sqrt_one
      exact h2 (by rw [hlen1]; norm_num)
    exact ⟨vlength_vnormalize _ hne,
      vnormalize_y_eq_zero _ (by rw [projectHorizontal_eq])⟩

theorem horizontalBasisDir_level (f r : Vec3) (hb : levelBasis f r) (θ : ℝ) :
    horizontalBasisDir θ f r = vadd (vsmul (Real.cos θ) f) (vsmul (Real.sin θ) r) := by
  obtain ⟨⟨hf, hr, hfr⟩, hfy, hry⟩ := hb
  have hy0 : (vadd (vsmul (Real.cos θ) f) (vsmul (Real.sin θ) r)).y = 0 := by
    unfold vadd vsmul
    simp [hfy, hry]
  have hdot : vdot (vadd (vsmul (Real.cos θ) f) (vsmul (Real.sin θ) r))
      (vadd (vsmul (Real.cos θ) f) (vsmul (Real.sin θ) r)) = 1 := by
    unfold vadd vsmul vdot at *
    simp only at *
    linear_combination (Real.cos θ) ^ 2 * hf + (Real.sin θ) ^ 2 * hr +
      2 * Real.cos θ * Real.sin θ * hfr + Real.sin_sq_add_cos_sq θ
  have hlen : vlength (vadd (vsmul (Real.cos θ) f) (vsmul (Real.sin θ) r)) = 1 := by
    unfold vlength
    rw [hdot]
    exact Real.sqrt_one
  unfold horizontalBasisDir
  simp only
  rw [projectHorizontal_of_y_zero _ hy0, hlen]
  rw [if_pos (by norm_num : (1 : ℝ) > 0.0001)]
  exact vnormalize_of_vlength_one _ hlen

/-! ## The blended direction and its readbacks -/

theorem elevDir_vdot_self (e : ℝ) (h : Vec3) (h1 : vdot h h = 1) (hy : h.y = 0) :
    vdot (elevDir e h) (elevDir e h) = 1 := by
  unfold elevDir vadd vsmul vdot worldUp at *
  simp only at *
  linear_combination (Real.cos e) ^ 2 * h1 + 2 * Real.cos e * Real.sin e * hy +
    Real.sin_sq_add_cos_sq e

theorem elevDir_vlength_one (e : ℝ) (h : Vec3) (h1 : vdot h h = 1) (hy : h.y = 0) :
    vlength (elevDir e h) = 1 := by
  unfold vlength
  rw [elevDir_vdot_self e h h1 hy]
  exact Real.sqrt_one

theorem elevDir_dot_up (e : ℝ) (h : Vec3) (hy : h.y = 0) :
    vdot (elevDir e h) worldUp = Real.sin e := by
  unfold elevDir vadd vsmul vdot worldUp
  simp [hy]

theorem projectHorizontal_elevDir (e : ℝ) (h : Vec3) (hy : h.y = 0) :
    projectHorizontal (elevDir e h) = vsmul (Real.cos e) h := by
  rw [projectHorizontal_eq]
  unfold elevDir vadd vsmul worldUp
  simp [hy]

theorem sphericalToCartesian_eq_smul (a e d : ℝ) (f r : Vec3) (hb : orthonormalBasis f r) :
    sphericalToCartesian a e d f r =
      vsmul d (elevDir (degToRad e) (horizontalBasisDir (degToRad (wrapAzimuth a)) f r)) := by
  obtain ⟨hlen, hy⟩ := horizontalBasisDir_spec f r hb (degToRad (wrapAzimuth a))
  unfold sphericalToCartesian
  simp only
  rw [vnormalize_of_vlength_one _
    (elevDir_vlength_one _ _ (vdot_self_of_vlength_one _ hlen) hy)]

theorem vlength_sphericalToCartesian (a e d : ℝ) (f r : Vec3) (hb : orthonormalBasis f r)
    (hd : 0 ≤ d) : vlength (sphericalToCartesian a e d f r) = d := by
  obtain ⟨hlen, hy⟩ := horizontalBasisDir_spec f r hb (degToRad (wrapAzimuth a))
  rw [sphericalToCartesian_eq_smul a e d f r hb, vlength_smul, abs_of_nonneg hd,
    elevDir_vlength_one _ _ (vdot_self_of_vlength_one _ hlen) hy, mul_one]

/-! ## Angle bookkeeping -/

theorem radToDeg_degToRad (x : ℝ) : radToDeg (degToRad x) = x := by
  unfold degToRad radToDeg
  field_simp

theorem degToRad_nonneg (x : ℝ) (h : 0 ≤ x) : 0 ≤ degToRad x := by
  unfold degToRad
  have hpi : (0 : ℝ) < Real.pi / 180 := by positivity
  positivity

theorem wrapAzimuth_eq_self (a : ℝ) (h0 : 0 ≤ a) (h1 : a < 360) : wrapAzimuth a = a := by
  unfold wrapAzimuth jsRem360 jsRem jsTrunc
  have hdiv0 : 0 ≤ a / 360 := by positivity
  have hdiv1 : a / 360 < 1 := (div_lt_one (by norm_num)).mpr h1
  rw [if_pos hdiv0, Int.floor_eq_zero_iff.mpr ⟨hdiv0, hdiv1⟩]
  simp only [Int.cast_zero, mul_zero, sub_zero]
  rw [if_neg (not_lt.mpr h0)]

theorem atan2_sin_cos (θ : ℝ) (h : θ ∈ Set.Ioc (-Real.pi) Real.pi) :
    atan2 (Real.sin θ) (Real.cos θ) = θ := by
  unfold atan2
  rw [Complex.mk_eq_add_mul_I, Complex.ofReal_cos, Complex.ofReal_sin]
  exact Complex.arg_cos_add_sin_mul_I h

theorem spherical_eq_of_fields (s : Spherical) (a e d : ℝ) (h1 : s.azimuth = a)
    (h2 : s.elevation = e) (h3 : s.distance = d) : s = ⟨a, e, d⟩ := by
  cases s
  simp only at h1 h2 h3
  simp [h1, h2, h3]

/-! ## Round trip of the coordinate conversions -/

theorem cts_stc_elev_dist (f r : Vec3) (hb : orthonormalBasis f r) (a e d : ℝ)
    (he0 : 0 ≤ e) (he90 : e ≤ 90) (hd : 0.0001 ≤ d) :
    (cartesianToSpherical (sphericalToCartesian a e d f r).x
        (sphericalToCartesian a e d f r).y
        (sphericalToCartesian a e d f r).z f r).elevation = e ∧
    (cartesianToSpherical (sphericalToCartesian a e d f r).x
        (sphericalToCartesian a e d f r).y
        (sphericalToCartesian a e d f r).z f r).distance = d := by
  obtain ⟨hlen, hy⟩ := horizontalBasisDir_spec f r hb (degToRad (wrapAzimuth a))
  have hulen : vlength (elevDir (degToRad e) (horizontalBasisDir (degToRad (wrapAzimuth a)) f r))
      = 1 := elevDir_vlength_one _ _ (vdot_self_of_vlength_one _ hlen) hy
  have hps := sphericalToCartesian_eq_smul a e d f r hb
  have hplen : vlength (sphericalToCartesian a e d f r) = d :=
    vlength_sphericalToCartesian a e d f r hb (by linarith)
  have hdpos : (0 : ℝ) < d := by linarith
  have hnorm : vnormalize (sphericalToCartesian a e d f r)
      = elevDir (degToRad e) (horizontalBasisDir (degToRad (wrapAzimuth a)) f r) := by
    rw [hps, vnormalize_smul_pos d hdpos, vnormalize_of_vlength_one _ hulen]
  have her0 : 0 ≤ degToRad e := degToRad_nonneg e he0
  have her2 : degToRad e ≤ Real.pi / 2 := by
    have h1 : degToRad e ≤ degToRad 90 := by
      unfold degToRad
      have : (0 : ℝ) ≤ Real.pi / 180 := by positivity
      exact mul_le_mul_of_nonneg_right he90 this
    have h2 : degToRad 90 = Real.pi / 2 := by unfold degToRad; ring
    linarith
  unfold cartesianToSpherical
  simp only
  rw [show (⟨(sphericalToCartesian a e d f r).x, (sphericalToCartesian a e d f r).y,
      (sphericalToCartesian a e d f r).z⟩ : Vec3) = sphericalToCartesian a e d f r from rfl]
  rw [hplen, if_neg (not_lt.mpr hd), hnorm]
  constructor
  · show elevationOf _ = e
    unfold elevationOf clamp1
    rw [elevDir_dot_up _ _ hy,
      min_eq_right (Real.sin_le_one _), max_eq_right (Real.neg_one_le_sin _),
      Real.arcsin_sin (by linarith [Real.pi_pos]) her2]
    exact radToDeg_degToRad e
  · rfl

theorem cts_stc_azimuth (f r : Vec3) (hb : levelBasis f r) (a e d : ℝ)
    (ha0 : 0 ≤ a) (ha : a < 360) (hcos : 0.0001 < Real.cos (degToRad e)) (hd : 0.0001 ≤ d) :
    (cartesianToSpherical (sphericalToCartesian a e d f r).x
        (sphericalToCartesian a e d f r).y
        (sphericalToCartesian a e d f r).z f r).azimuth = a := by
  obtain ⟨hob, hfy, hry⟩ := hb
  obtain ⟨hf, hr, hfr⟩ := hob
  have hwrap : wrapAzimuth a = a := wrapAzimuth_eq_self a ha0 ha
  have hcospos : (0 : ℝ) < Real.cos (degToRad e) := by linarith
  have hhb : horizontalBasisDir (degToRad (wrapAzimuth a)) f r
      = vadd (vsmul (Real.cos (degToRad a)) f) (vsmul (Real.sin (degToRad a)) r) := by
    rw [hwrap]
    exact horizontalBasisDir_level f r ⟨⟨hf, hr, hfr⟩, hfy, hry⟩ (degToRad a)
  obtain ⟨hlen, hy⟩ := horizontalBasisDir_spec f r ⟨hf, hr, hfr⟩ (degToRad (wrapAzimuth a))
  rw [hhb] at hlen hy
  have hulen : vlength (elevDir (degToRad e)
        (vadd (vsmul (Real.cos (degToRad a)) f) (vsmul (Real.sin (degToRad a)) r))) = 1 :=
    elevDir_vlength_one _ _ (vdot_self_of_vlength_one _ hlen) hy
  have hps := sphericalToCartesian_eq_smul a e d f r ⟨hf, hr, hfr⟩
  rw [hhb] at hps
  have hplen : vlength (sphericalToCartesian a e d f r) = d :=
    vlength_sphericalToCartesian a e d f r ⟨hf, hr, hfr⟩ (by linarith)
  have hdpos : (0 : ℝ) < d := by linarith
  have hnorm : vnormalize (sphericalToCartesian a e d f r)
      = elevDir (degToRad e)
          (vadd (vsmul (Real.cos (degToRad a)) f) (vsmul (Real.sin (degToRad a)) r)) := by
    rw [hps, vnormalize_smul_pos d hdpos, vnormalize_of_vlength_one _ hulen]
  unfold cartesianToSpherical
  simp only
  rw [show (⟨(sphericalToCartesian a e d f r).x, (sphericalToCartesian a e d f r).y,
      (sphericalToCartesian a e d f r).z⟩ : Vec3) = sphericalToCartesian a e d f r from rfl]
  rw [hplen, if_neg (not_lt.mpr hd), hnorm]
  show azimuthOf _ f r = a
  unfold azimuthOf
  simp only
  rw [projectHorizontal_elevDir _ _ hy, vlength_smul, hlen, mul_one,
    abs_of_pos hcospos, if_pos hcos,
    vnormalize_smul_pos _ hcospos, vnormalize_of_vlength_one _ hlen]
  have hdr : vdot (vadd (vsmul (Real.cos (degToRad a)) f) (vsmul (Real.sin (degToRad a)) r)) r
      = Real.sin (degToRad a) := by
    unfold vadd vsmul vdot at *
    simp only at *
    linear_combination Real.cos (degToRad a) * hfr + Real.sin (degToRad a) * hr
  have hdf : vdot (vadd (vsmul (Real.cos (degToRad a)) f) (vsmul (Real.sin (degToRad a)) r)) f
      = Real.cos (degToRad a) := by
    unfold vadd vsmul vdot at *
    simp only at *
    linear_combination Real.cos (degToRad a) * hf + Real.sin (degToRad a) * hfr
  rw [hdr, hdf]
  have hpi180 : (0 : ℝ) < Real.pi / 180 := by positivity
  by_cases hcase : a ≤ 180
  · have hmem : degToRad a ∈ Set.Ioc (-Real.pi) Real.pi := by
      constructor
      · have := degToRad_nonneg a ha0
        linarith [Real.pi_pos]
      · unfold degToRad
        calc a * (Real.pi / 180) ≤ 180 * (Real.pi / 180) :=
              mul_le_mul_of_nonneg_right hcase (le_of_lt hpi180)
          _ = Real.pi := by ring
    rw [atan2_sin_cos _ hmem, radToDeg_degToRad, if_neg (not_lt.mpr ha0)]
  · push_neg at hcase
    have hmem : degToRad a - 2 * Real.pi ∈ Set.Ioc (-Real.pi) Real.pi := by
      constructor
      · have : 180 * (Real.pi / 180) < a * (Real.pi / 180) :=
          mul_lt_mul_of_pos_right hcase hpi180
        unfold degToRad
        nlinarith [Real.pi_pos]
      · have : a * (Real.pi / 180) < 360 * (Real.pi / 180) :=
          mul_lt_mul_of_pos_right ha hpi180
        unfold degToRad
        nlinarith [Real.pi_pos]
    rw [← Real.sin_sub_two_pi (degToRad a), ← Real.cos_sub_two_pi (degToRad a),
      atan2_sin_cos _ hmem]
    have hconv : radToDeg (degToRad a - 2 * Real.pi) = a - 360 := by
      unfold radToDeg degToRad
      field_simp
      ring
    rw [hconv, if_pos (by linarith)]
    ring

theorem roundtrip_level (f r : Vec3) (hb : levelBasis f r) (a e d : ℝ)
    (ha0 : 0 ≤ a) (ha : a < 360) (he0 : 0 ≤ e) (he90 : e ≤ 90)
    (hcos : 0.0001 < Real.cos (degToRad e)) (hd : 0.0001 ≤ d) :
    cartesianToSpherical (sphericalToCartesian a e d f r).x
        (sphericalToCartesian a e d f r).y
        (sphericalToCartesian a e d f r).z f r = ⟨a, e, d⟩ := by
  obtain ⟨hel, hdi⟩ := cts_stc_elev_dist f r hb.1 a e d he0 he90 hd
  exact spherical_eq_of_fields _ a e d (cts_stc_azimuth f r hb a e d ha0 ha hcos hd) hel hdi

theorem orthonormal_cam0 : orthonormalBasis camForward0 camRight0 := by
  unfold orthonormalBasis vdot camForward0 camRight0
  norm_num

theorem level_cam0 : levelBasis camForward0 camRight0 := ⟨orthonormal_cam0, rfl, rfl⟩

theorem degToRad_ninety : degToRad 90 = Real.pi / 2 := by
  unfold degToRad; ring

theorem degToRad_zero : degToRad 0 = 0 := by
  unfold degToRad; ring

theorem vlength_zero_vec : vlength (⟨0, 0, 0⟩ : Vec3) = 0 := by
  unfold vlength vdot
  norm_num

/-! ## Claim C1 -/

/-- Claim C1, counterexample. The claim states the round trip
cartesianToSpherical after sphericalToCartesian returns the input triple
within 1e-3 for every azimuth in [0,360), elevation in [0,90], distance
above 0 and any camera. At azimuth 90, elevation 90, distance 1 with the
default level camera, the produced position is straight up, so the
read-back azimuth is 0 by the vertical-direction convention of
cartesianToSpherical: the azimuth error is 90, far beyond the 1e-3
tolerance. -/
theorem c1_roundtrip_counterexample :
    (cartesianToSpherical (sphericalToCartesian 90 90 1 camForward0 camRight0).x
        (sphericalToCartesian 90 90 1 camForward0 camRight0).y
        (sphericalToCartesian 90 90 1 camForward0 camRight0).z
        camForward0 camRight0).azimuth = 0 ∧
    ¬ (|(cartesianToSpherical (sphericalToCartesian 90 90 1 camForward0 camRight0).x
        (sphericalToCartesian 90 90 1 camForward0 camRight0).y
        (sphericalToCartesian 90 90 1 camForward0 camRight0).z
        camForward0 camRight0).azimuth - 90| ≤ 0.001) := by
  have hwrap : wrapAzimuth (90 : ℝ) = 90 := wrapAzimuth_eq_self 90 (by norm_num) (by norm_num)
  have hhb : horizontalBasisDir (degToRad (wrapAzimuth 90)) camForward0 camRight0
      = vadd (vsmul (Real.cos (degToRad 90)) camForward0)
          (vsmul (Real.sin (degToRad 90)) camRight0) := by
    rw [hwrap]
    exact horizontalBasisDir_level camForward0 camRight0 level_cam0 (degToRad 90)
  have hh1 : horizontalBasisDir (degToRad (wrapAzimuth 90)) camForward0 camRight0
      = (⟨1, 0, 0⟩ : Vec3) := by
    rw [hhb, degToRad_ninety, Real.cos_pi_div_two, Real.sin_pi_div_two]
    unfold vadd vsmul camForward0 camRight0
    norm_num
  have hu : elevDir (degToRad 90) (⟨1, 0, 0⟩ : Vec3) = (⟨0, 1, 0⟩ : Vec3) := by
    rw [degToRad_ninety]
    unfold elevDir vadd vsmul worldUp
    rw [Real.cos_pi_div_two, Real.sin_pi_div_two]
    norm_num
  have hulen : vlength (⟨0, 1, 0⟩ : Vec3) = 1 := by
    unfold vlength vdot
    norm_num
  have hpos : sphericalToCartesian 90 90 1 camForward0 camRight0 = (⟨0, 1, 0⟩ : Vec3) := by
    rw [sphericalToCartesian_eq_smul 90 90 1 camForward0 camRight0 orthonormal_cam0, hh1, hu,
      vsmul_one]
  have haz : (cartesianToSpherical (sphericalToCartesian 90 90 1 camForward0 camRight0).x
      (sphericalToCartesian 90 90 1 camForward0 camRight0).y
      (sphericalToCartesian 90 90 1 camForward0 camRight0).z
      camForward0 camRight0).azimuth = 0 := by
    rw [hpos]
    unfold cartesianToSpherical
    simp only
    rw [hulen]
    rw [if_neg (by norm_num)]
    show azimuthOf (vnormalize ⟨0, 1, 0⟩) camForward0 camRight0 = 0
    rw [vnormalize_of_vlength_one _ hulen]
    unfold azimuthOf
    simp only
    rw [projectHorizontal_eq]
    simp only
    rw [if_neg (by rw [vlength_zero_vec]; norm_num)]
  refine ⟨haz, ?_⟩
  rw [haz]
  norm_num

/-- Claim C1 (amended). For any orthonormal camera basis, elevation in
[0,90] and distance at least the 1e-4 pivot threshold, the round trip
recovers elevation and distance exactly; if additionally the camera basis
is level (horizontal forward and right vectors), the azimuth lies in
[0,360) and the elevation keeps the horizontal component above the 1e-4
threshold (cos of the elevation above 1e-4), the full triple is recovered
exactly, which is stronger than the claimed 1e-3 tolerance. -/
theorem c1_roundtrip_amended (f r : Vec3) (a e d : ℝ)
    (hb : orthonormalBasis f r) (he0 : 0 ≤ e) (he90 : e ≤ 90) (hd : 0.0001 ≤ d) :
    ((cartesianToSpherical (sphericalToCartesian a e d f r).x
        (sphericalToCartesian a e d f r).y
        (sphericalToCartesian a e d f r).z f r).elevation = e ∧
     (cartesianToSpherical (sphericalToCartesian a e d f r).x
        (sphericalToCartesian a e d f r).y
        (sphericalToCartesian a e d f r).z f r).distance = d) ∧
    (levelBasis f r → 0 ≤ a → a < 360 → 0.0001 < Real.cos (degToRad e) →
      cartesianToSpherical (sphericalToCartesian a e d f r).x
        (sphericalToCartesian a e d f r).y
        (sphericalToCartesian a e d f r).z f r = ⟨a, e, d⟩) :=
  ⟨cts_stc_elev_dist f r hb a e d he0 he90 hd,
   fun hl h1 h2 h3 => roundtrip_level f r hl a e d h1 h2 he0 he90 h3 hd⟩

/-- Claim C1, witness: the amended round trip instantiated at azimuth 0,
elevation 0, distance 1 with the application camera. -/
theorem c1_roundtrip_witness :
    orthonormalBasis camForward0 camRight0 ∧
    cartesianToSpherical (sphericalToCartesian 0 0 1 camForward0 camRight0).x
        (sphericalToCartesian 0 0 1 camForward0 camRight0).y
        (sphericalToCartesian 0 0 1 camForward0 camRight0).z
        camForward0 camRight0 = ⟨0, 0, 1⟩ := by
  have hcos : (0.0001 : ℝ) < Real.cos (degToRad 0) := by
    rw [degToRad_zero, Real.cos_zero]; norm_num
  exact ⟨orthonormal_cam0,
    (c1_roundtrip_amended camForward0 camRight0 0 0 1 orthonormal_cam0 (by norm_num)
        (by norm_num) (by norm_num)).2 level_cam0 (by norm_num) (by norm_num) hcos⟩

/-! ## Claims about the light rig state -/

theorem setPositionSpherical_position (s : LightState) (az el : ℝ) (f r : Vec3) :
    (setPositionSpherical s az el f r).position
      = sphericalToCartesian az el
          (if vlength s.position > 0.0001 then vlength s.position else 1.0) f r := rfl

theorem getPositionSpherical_distance (s : LightState) (f r : Vec3)
    (h : ¬ vlength s.position < 0.0001) :
    (getPositionSpherical s f r).distance = vlength s.position := by
  unfold getPositionSpherical cartesianToSpherical
  simp only
  rw [show (⟨s.position.x, s.position.y, s.position.z⟩ : Vec3) = s.position from rfl, if_neg h]

/-- Claim C2, counterexample. A light sitting exactly at the pivot has
read-back distance 0; after setPositionSpherical the distance is 1, not 0,
because the implementation substitutes the default distance 1.0 below the
1e-4 threshold. -/
theorem c2_counterexample_at_pivot :
    (getPositionSpherical lightAtPivot camForward0 camRight0).distance = 0 ∧
    (getPositionSpherical (setPositionSpherical lightAtPivot 0 0 camForward0 camRight0)
        camForward0 camRight0).distance = 1 := by
  have hp : lightAtPivot.position = (⟨0, 0, 0⟩ : Vec3) := rfl
  have hlen0 : vlength lightAtPivot.position = 0 := by rw [hp]; exact vlength_zero_vec
  constructor
  · unfold getPositionSpherical cartesianToSpherical
    simp only
    rw [show (⟨lightAtPivot.position.x, lightAtPivot.position.y, lightAtPivot.position.z⟩ : Vec3)
        = lightAtPivot.position from rfl]
    rw [if_pos (by rw [hlen0]; norm_num)]
  · have hposnew : (setPositionSpherical lightAtPivot 0 0 camForward0 camRight0).position
        = sphericalToCartesian 0 0 1.0 camForward0 camRight0 := by
      rw [setPositionSpherical_position, if_neg (by rw [hlen0]; norm_num)]
    have hlennew : vlength (setPositionSpherical lightAtPivot 0 0 camForward0 camRight0).position
        = 1 := by
      rw [hposnew, show (1.0 : ℝ) = 1 from by norm_num]
      exact vlength_sphericalToCartesian 0 0 1 camForward0 camRight0 orthonormal_cam0
        (by norm_num)
    rw [getPositionSpherical_distance _ camForward0 camRight0
      (by rw [hlennew]; norm_num), hlennew]

/-- Claim C2 (amended). Whenever the current distance of the light from
the pivot is above the 1e-4 threshold, setPositionSpherical with any
azimuth and elevation and any orthonormal camera basis leaves the
read-back distance exactly unchanged. (At or below the threshold the
implementation deliberately resets the distance to 1.0.) -/
theorem c2_distance_preserved (s : LightState) (az el : ℝ) (f r : Vec3)
    (hb : orthonormalBasis f r) (hdist : 0.0001 < vlength s.position) :
    (getPositionSpherical (setPositionSpherical s az el f r) f r).distance
      = (getPositionSpherical s f r).distance := by
  have hposnew : (setPositionSpherical s az el f r).position
      = sphericalToCartesian az el (vlength s.position) f r := by
    rw [setPositionSpherical_position, if_pos hdist]
  have hlennew : vlength (setPositionSpherical s az el f r).position = vlength s.position := by
    rw [hposnew]
    exact vlength_sphericalToCartesian az el (vlength s.position) f r hb
      (le_of_lt (lt_trans (by norm_num) hdist))
  rw [getPositionSpherical_distance _ f r (by rw [hlennew]; exact not_lt.mpr (le_of_lt hdist)),
    getPositionSpherical_distance s f r (not_lt.mpr (le_of_lt hdist)), hlennew]

/-- Claim C2, witness: the key light in its initial pose keeps its
distance under setPositionSpherical with the application camera. -/
theorem c2_distance_preserved_witness :
    0.0001 < vlength keyLightInitial.position ∧
    (getPositionSpherical (setPositionSpherical keyLightInitial 90 45 camForward0 camRight0)
        camForward0 camRight0).distance
      = (getPositionSpherical keyLightInitial camForward0 camRight0).distance := by
  have hdist : (0.0001 : ℝ) < vlength keyLightInitial.position := by
    have : vlength keyLightInitial.position = Real.sqrt 62.25 := by
      unfold vlength vdot
      norm_num [show keyLightInitial.position = (⟨5, 3.5, 5⟩ : Vec3) from rfl]
    rw [this]
    have h1 : (1 : ℝ) ≤ Real.sqrt 62.25 := by
      rw [show (1 : ℝ) = Real.sqrt 1 from (Real.sqrt_one).symm]
      exact Real.sqrt_le_sqrt (by norm_num)
    linarith
  exact ⟨hdist,
    c2_distance_preserved keyLightInitial 90 45 camForward0 camRight0 orthonormal_cam0 hdist⟩

theorem vadd_smul_self (v : Vec3) (c : ℝ) : vadd v (vsmul c v) = vsmul (1 + c) v := by
  unfold vadd vsmul
  cases v
  simp only [Vec3.mk.injEq]
  refine ⟨by ring, by ring, by ring⟩

theorem vsmul_zero_scalar (v : Vec3) : vsmul 0 v = (⟨0, 0, 0⟩ : Vec3) := by
  unfold vsmul
  simp

theorem lightDolly_position (s : LightState) (δ : ℝ) (h : 0.0001 < vlength s.position) :
    (lightDolly s δ).position = vsmul (vlength s.position + δ) (vnormalize s.position) := by
  have hne : vlength s.position ≠ 0 := ne_of_gt (lt_trans (by norm_num) h)
  have hstep : (lightDolly s δ).position
      = vadd s.position (vsmul δ (vnormalize s.position)) := by
    unfold lightDolly
    simp only
    rw [if_pos h]
    rfl
  rw [hstep]
  unfold vnormalize
  rw [if_neg hne, vsmul_vsmul, vadd_smul_self, vsmul_vsmul]
  congr 1
  field_simp

theorem lightDolly_position_default (s : LightState) (δ : ℝ)
    (h : ¬ vlength s.position > 0.0001) :
    (lightDolly s δ).position = vadd s.position (vsmul δ (⟨0, 0, 1⟩ : Vec3)) := by
  unfold lightDolly
  simp only
  rw [if_neg h]
  rfl

/-- Claim C3, counterexample. The claim asserts that two successive dolly
calls with deltas d1, d2 keep the radial direction unchanged whenever
D + d1 + d2 is nonnegative. Starting from position (2,0,0) (distance 2),
dolly(-2) lands exactly on the pivot and dolly(2) then moves along the
hard-coded default direction (0,0,1): the final position is (0,0,2), whose
radial direction differs from the initial direction (1,0,0), even though
D + d1 + d2 = 2 is nonnegative. -/
theorem c3_dolly_counterexample :
    vlength lightAtX2.position = 2 ∧
    (lightDolly (lightDolly lightAtX2 (-2)) 2).position = (⟨0, 0, 2⟩ : Vec3) ∧
    vnormalize ((lightDolly (lightDolly lightAtX2 (-2)) 2).position)
      ≠ vnormalize lightAtX2.position := by
  have hp : lightAtX2.position = (⟨2, 0, 0⟩ : Vec3) := rfl
  have hlen2 : vlength lightAtX2.position = 2 := by
    rw [hp]
    unfold vlength vdot
    norm_num
    rw [show (4 : ℝ) = 2 ^ 2 from by norm_num]
    exact Real.sqrt_sq (by norm_num)
  have hstep1 : (lightDolly lightAtX2 (-2)).position = (⟨0, 0, 0⟩ : Vec3) := by
    rw [lightDolly_position lightAtX2 (-2) (by rw [hlen2]; norm_num), hlen2,
      show (2 : ℝ) + -2 = 0 from by norm_num, vsmul_zero_scalar]
  have hlenz : vlength (lightDolly lightAtX2 (-2)).position = 0 := by
    rw [hstep1]; exact vlength_zero_vec
  have hstep2 : (lightDolly (lightDolly lightAtX2 (-2)) 2).position = (⟨0, 0, 2⟩ : Vec3) := by
    rw [lightDolly_position_default _ 2 (by rw [hlenz]; norm_num), hstep1]
    unfold vadd vsmul
    norm_num
  refine ⟨hlen2, hstep2, ?_⟩
  rw [hstep2, hp]
  have h1 : vnormalize (⟨0, 0, 2⟩ : Vec3) = (⟨0, 0, 1⟩ : Vec3) := by
    have hl : vlength (⟨0, 0, 2⟩ : Vec3) = 2 := by
      unfold vlength vdot
      norm_num
      rw [show (4 : ℝ) = 2 ^ 2 from by norm_num]
      exact Real.sqrt_sq (by norm_num)
    unfold vnormalize
    rw [hl, if_neg (by norm_num : (2 : ℝ) ≠ 0)]
    unfold vsmul
    norm_num
  have h2 : vnormalize (⟨2, 0, 0⟩ : Vec3) = (⟨1, 0, 0⟩ : Vec3) := by
    have hl : vlength (⟨2, 0, 0⟩ : Vec3) = 2 := by rw [← hp]; exact hlen2
    unfold vnormalize
    rw [hl, if_neg (by norm_num : (2 : ℝ) ≠ 0)]
    unfold vsmul
    norm_num
  rw [h1, h2]
  simp [Vec3.mk.injEq]

/-- Claim C3 (amended). If the starting distance D and the intermediate
distance D + d1 both stay above the 1e-4 threshold, two successive dolly
calls land exactly at (D + d1 + d2) times the original radial unit vector;
in particular, when D + d1 + d2 is nonnegative, the distance from the
pivot is exactly D + d1 + d2 and the radial direction is unchanged. -/
theorem c3_dolly_compose (s : LightState) (d1 d2 : ℝ)
    (hD : 0.0001 < vlength s.position) (hD1 : 0.0001 < vlength s.position + d1)
    (hsum : 0 ≤ vlength s.position + d1 + d2) :
    (lightDolly (lightDolly s d1) d2).position
      = vsmul (vlength s.position + d1 + d2) (vnormalize s.position) ∧
    vlength (lightDolly (lightDolly s d1) d2).position
      = vlength s.position + d1 + d2 := by
  have hne : vlength s.position ≠ 0 := ne_of_gt (lt_trans (by norm_num) hD)
  have hu1 : vlength (vnormalize s.position) = 1 := vlength_vnormalize _ hne
  have h1 : (lightDolly s d1).position
      = vsmul (vlength s.position + d1) (vnormalize s.position) :=
    lightDolly_position s d1 hD
  have hlen1 : vlength (lightDolly s d1).position = vlength s.position + d1 := by
    rw [h1, vlength_smul, hu1, mul_one, abs_of_pos (lt_trans (by norm_num) hD1)]
  have h2 : (lightDolly (lightDolly s d1) d2).position
      = vsmul (vlength (lightDolly s d1).position + d2)
          (vnormalize (lightDolly s d1).position) :=
    lightDolly_position _ d2 (by rw [hlen1]; exact hD1)
  have hnorm1 : vnormalize (lightDolly s d1).position = vnormalize s.position := by
    rw [h1, vnormalize_smul_pos _ (lt_trans (by norm_num) hD1),
      vnormalize_of_vlength_one _ hu1]
  have hfinal : (lightDolly (lightDolly s d1) d2).position
      = vsmul (vlength s.position + d1 + d2) (vnormalize s.position) := by
    rw [h2, hlen1, hnorm1, add_assoc]
  refine ⟨hfinal, ?_⟩
  rw [hfinal, vlength_smul, hu1, mul_one, abs_of_nonneg hsum]

/-- Claim C3, witness: from position (0,0,2) (distance 2), dolly(1) then
dolly(0.5) lands at distance 3.5 along the unchanged radial direction. -/
theorem c3_dolly_compose_witness :
    0.0001 < vlength lightAtZ2.position ∧
    vlength ((lightDolly (lightDolly lightAtZ2 1) 0.5).position)
      = vlength lightAtZ2.position + 1 + 0.5 := by
  have hp : lightAtZ2.position = (⟨0, 0, 2⟩ : Vec3) := rfl
  have hlen2 : vlength lightAtZ2.position = 2 := by
    rw [hp]
    unfold vlength vdot
    norm_num
    rw [show (4 : ℝ) = 2 ^ 2 from by norm_num]
    exact Real.sqrt_sq (by norm_num)
  have hD : (0.0001 : ℝ) < vlength lightAtZ2.position := by rw [hlen2]; norm_num
  exact ⟨hD, (c3_dolly_compose lightAtZ2 1 0.5 hD (by rw [hlen2]; norm_num)
    (by rw [hlen2]; norm_num)).2⟩

/-- Claim C10. When setPositionSpherical is invoked while the light sits
closer to the pivot than the 1e-4 threshold, the light does not stay
there: with any orthonormal camera basis it is placed on the sphere of
radius exactly 1.0 around the pivot, at the Cartesian point determined by
the requested azimuth and elevation. -/
theorem c10_pivot_reset_distance (s : LightState) (az el : ℝ) (f r : Vec3)
    (hb : orthonormalBasis f r) (hpivot : vlength s.position < 0.0001) :
    (setPositionSpherical s az el f r).position = sphericalToCartesian az el 1 f r ∧
    vlength (setPositionSpherical s az el f r).position = 1 := by
  have h1 : (setPositionSpherical s az el f r).position
      = sphericalToCartesian az el 1 f r := by
    rw [setPositionSpherical_position, if_neg (not_lt.mpr (le_of_lt hpivot)),
      show (1.0 : ℝ) = 1 from by norm_num]
  exact ⟨h1, by rw [h1]; exact vlength_sphericalToCartesian az el 1 f r hb (by norm_num)⟩

/-! ## Claim C4: moveTowardDirection -/

theorem signedShortestDiff_spec (t c : ℝ) (h1 : -360 < t - c) (h2 : t - c < 360) :
    (-180 ≤ signedShortestDiff t c ∧ signedShortestDiff t c ≤ 180) ∧
    ∃ k : ℤ, signedShortestDiff t c = (t - c) + 360 * k := by
  unfold signedShortestDiff
  simp only
  split_ifs with ha hb hb
  · exact absurd hb (by push_neg; linarith)
  · exact ⟨⟨by linarith, by linarith⟩, ⟨-1, by push_cast; ring⟩⟩
  · exact ⟨⟨by linarith, by linarith⟩, ⟨1, by push_cast; ring⟩⟩
  · exact ⟨⟨by linarith, by linarith⟩, ⟨0, by push_cast; ring⟩⟩

theorem jsRem360_of_nonneg (y : ℝ) (hy : 0 ≤ y) :
    0 ≤ jsRem360 y ∧ jsRem360 y < 360 ∧ ∃ k : ℤ, jsRem360 y = y - 360 * k := by
  unfold jsRem360 jsRem jsTrunc
  rw [if_pos (div_nonneg hy (by norm_num))]
  have h1 : ((⌊y / 360⌋ : ℤ) : ℝ) ≤ y / 360 := Int.floor_le _
  have h2 : y / 360 < (⌊y / 360⌋ : ℤ) + 1 := Int.lt_floor_add_one _
  exact ⟨by linarith, by linarith, ⟨⌊y / 360⌋, rfl⟩⟩

theorem abs_eq_of_shift (A B : ℝ) (k : ℤ) (hA1 : -180 ≤ A) (hA2 : A ≤ 180)
    (hB1 : -180 ≤ B) (hB2 : B ≤ 180) (h : A = B + 360 * k) : |A| = |B| := by
  have hk1 : ((k : ℝ)) ≤ 1 := by nlinarith
  have hk2 : (-1 : ℝ) ≤ (k : ℝ) := by nlinarith
  have hk : k = -1 ∨ k = 0 ∨ k = 1 := by
    have h1 : k ≤ 1 := by exact_mod_cast hk1
    have h2 : -1 ≤ k := by exact_mod_cast hk2
    omega
  rcases hk with hk | hk | hk <;> subst hk <;> push_cast at h
  · have hA : A = -180 := by linarith
    have hB : B = 180 := by linarith
    rw [hA, hB]
    norm_num
  · have : A = B := by linarith
    rw [this]
  · have hA : A = 180 := by linarith
    have hB : B = -180 := by linarith
    rw [hA, hB]
    norm_num

theorem moveAmount_abs (diff degrees : ℝ) (hdeg : 0 ≤ degrees) :
    |diff - jsSign diff * min |diff| degrees| = |diff| - min |diff| degrees := by
  unfold jsSign
  rcases lt_trichotomy diff 0 with h | h | h
  · rw [if_pos h, abs_of_neg h]
    rcases le_total (-diff) degrees with hm | hm
    · rw [min_eq_left hm, show diff - -1 * -diff = 0 from by ring, abs_zero]
      ring
    · rw [min_eq_right hm, show diff - -1 * degrees = diff + degrees from by ring,
        abs_of_nonpos (by linarith)]
      ring
  · subst h
    simp [min_eq_left hdeg]
  · rw [if_neg (not_lt.mpr (le_of_lt h)), if_pos h, abs_of_pos h]
    rcases le_total diff degrees with hm | hm
    · rw [min_eq_left hm, show diff - 1 * diff = 0 from by ring, abs_zero]
      ring
    · rw [min_eq_right hm, show diff - 1 * degrees = diff - degrees from by ring,
        abs_of_nonneg (by linarith)]

theorem jsSign_abs_le_one (x : ℝ) : |jsSign x| ≤ 1 := by
  unfold jsSign
  split_ifs <;> norm_num

theorem moveTowardAzimuth_no_overshoot (cur target degrees : ℝ)
    (hc0 : 0 ≤ cur) (hc1 : cur < 360) (ht0 : 0 ≤ target) (ht1 : target < 360)
    (hdeg : 0 ≤ degrees) :
    |signedShortestDiff target (moveTowardAzimuth cur target degrees)|
      = |signedShortestDiff target cur| - min |signedShortestDiff target cur| degrees := by
  obtain ⟨⟨hd1, hd2⟩, k, hk⟩ := signedShortestDiff_spec target cur (by linarith) (by linarith)
  set diff := signedShortestDiff target cur with hdiff
  set move := jsSign diff * min |diff| degrees with hmove
  have hmin0 : 0 ≤ min |diff| degrees := le_min (abs_nonneg diff) hdeg
  have habs_move : |move| ≤ |diff| := by
    rw [hmove, abs_mul, abs_of_nonneg hmin0]
    calc |jsSign diff| * min |diff| degrees ≤ 1 * min |diff| degrees :=
          mul_le_mul_of_nonneg_right (jsSign_abs_le_one diff) hmin0
      _ = min |diff| degrees := one_mul _
      _ ≤ |diff| := min_le_left _ _
  have hdabs : |diff| ≤ 180 := abs_le.mpr ⟨hd1, hd2⟩
  have hmove1 : -180 ≤ move := by
    have := abs_le.mp (le_trans habs_move hdabs)
    exact this.1
  have hy0 : 0 ≤ cur + move + 360 := by linarith
  obtain ⟨hn0, hn1, m, hm⟩ := jsRem360_of_nonneg (cur + move + 360) hy0
  have hnew : moveTowardAzimuth cur target degrees = jsRem360 (cur + move + 360) := rfl
  rw [hnew]
  obtain ⟨⟨hD1, hD2⟩, k2, hk2⟩ := signedShortestDiff_spec target (jsRem360 (cur + move + 360))
    (by linarith) (by linarith)
  have hmabs := moveAmount_abs diff degrees hdeg
  have hdm : |diff - move| ≤ 180 := by
    rw [hmove] at *
    rw [hmabs]
    calc |diff| - min |diff| degrees ≤ |diff| := by linarith
      _ ≤ 180 := hdabs
  have hdm1 := (abs_le.mp hdm).1
  have hdm2 := (abs_le.mp hdm).2
  have hK : signedShortestDiff target (jsRem360 (cur + move + 360))
      = (diff - move) + 360 * ((k2 + m - 1 - k : ℤ) : ℝ) := by
    rw [hk2, hm]
    have htc : target - cur = diff - 360 * (k : ℝ) := by linarith [hk]
    push_cast
    linarith [htc]
  rw [abs_eq_of_shift _ (diff - move) (k2 + m - 1 - k) hD1 hD2 hdm1 hdm2 hK, hmabs]

theorem getPositionSpherical_eq (s : LightState) (f r : Vec3) (a e d : ℝ)
    (hpos : s.position = sphericalToCartesian a e d f r) (hb : levelBasis f r)
    (ha0 : 0 ≤ a) (ha : a < 360) (he0 : 0 ≤ e) (he90 : e ≤ 90)
    (hcos : 0.0001 < Real.cos (degToRad e)) (hd : 0.0001 ≤ d) :
    getPositionSpherical s f r = ⟨a, e, d⟩ := by
  unfold getPositionSpherical
  rw [hpos]
  exact roundtrip_level f r hb a e d ha0 ha he0 he90 hcos hd

theorem set_get_spherical (s : LightState) (az el : ℝ) (f r : Vec3) (hb : levelBasis f r)
    (hdist : 0.0001 < vlength s.position)
    (ha0 : 0 ≤ az) (ha1 : az < 360) (he0 : 0 ≤ el) (he1 : el ≤ 90)
    (hcos : 0.0001 < Real.cos (degToRad el)) :
    getPositionSpherical (setPositionSpherical s az el f r) f r
      = ⟨az, el, vlength s.position⟩ := by
  have hpos : (setPositionSpherical s az el f r).position
      = sphericalToCartesian az el (vlength s.position) f r := by
    rw [setPositionSpherical_position, if_pos hdist]
  exact getPositionSpherical_eq _ f r az el (vlength s.position) hpos hb ha0 ha1 he0 he1 hcos
    (le_of_lt hdist)

theorem cos_degToRad_zero_large : (0.0001 : ℝ) < Real.cos (degToRad 0) := by
  rw [degToRad_zero, Real.cos_zero]
  norm_num

theorem lightAz190_get : getPositionSpherical lightAz190 camForward0 camRight0
    = ⟨190, 0, 5⟩ :=
  getPositionSpherical_eq lightAz190 camForward0 camRight0 190 0 5 rfl level_cam0
    (by norm_num) (by norm_num) (by norm_num) (by norm_num) cos_degToRad_zero_large
    (by norm_num)

theorem lightAz190_vlength : vlength lightAz190.position = 5 :=
  vlength_sphericalToCartesian 190 0 5 camForward0 camRight0 orthonormal_cam0 (by norm_num)

theorem signedShortestDiff_200_190 : signedShortestDiff 200 190 = 10 := by
  unfold signedShortestDiff
  norm_num

theorem jsRem360_560 : jsRem360 560 = 200 := by
  unfold jsRem360 jsRem jsTrunc
  rw [if_pos (by norm_num : (0 : ℝ) ≤ 560 / 360)]
  have hfl : ⌊(560 : ℝ) / 360⌋ = 1 := by
    rw [Int.floor_eq_iff]
    constructor <;> norm_num
  rw [hfl]
  norm_num

theorem moveTowardAzimuth_190_200 (degrees : ℝ) (h : 10 ≤ degrees) :
    moveTowardAzimuth 190 200 degrees = 200 := by
  have h1 : moveTowardAzimuth 190 200 degrees
      = jsRem360 (190 + jsSign (signedShortestDiff 200 190)
          * min |signedShortestDiff 200 190| degrees + 360) := rfl
  rw [h1, signedShortestDiff_200_190]
  rw [show jsSign (10 : ℝ) = 1 from by unfold jsSign; norm_num]
  rw [show |(10 : ℝ)| = 10 from by norm_num, min_eq_left h]
  rw [show (190 : ℝ) + 1 * 10 + 360 = 560 from by norm_num]
  exact jsRem360_560

theorem moveToward_land_200 (degrees : ℝ) (h : 10 ≤ degrees) :
    (getPositionSpherical (moveTowardDirection lightAz190 200 degrees camForward0 camRight0)
        camForward0 camRight0).azimuth = 200 := by
  have hw : wrapAzimuth 200 = 200 := wrapAzimuth_eq_self 200 (by norm_num) (by norm_num)
  have hstep : moveTowardDirection lightAz190 200 degrees camForward0 camRight0
      = setPositionSpherical lightAz190
          (moveTowardAzimuth
            (getPositionSpherical lightAz190 camForward0 camRight0).azimuth
            (wrapAzimuth 200) degrees)
          (getPositionSpherical lightAz190 camForward0 camRight0).elevation
          camForward0 camRight0 := rfl
  rw [hstep, hw, lightAz190_get]
  show (getPositionSpherical (setPositionSpherical lightAz190
      (moveTowardAzimuth 190 200 degrees) 0 camForward0 camRight0)
      camForward0 camRight0).azimuth = 200
  rw [moveTowardAzimuth_190_200 degrees h]
  rw [set_get_spherical lightAz190 200 0 camForward0 camRight0 level_cam0
    (by rw [lightAz190_vlength]; norm_num) (by norm_num) (by norm_num) (by norm_num)
    (by norm_num) cos_degToRad_zero_large]

/-- Claim C4. moveTowardDirection computes the signed shortest angular
difference from the current azimuth to the target azimuth, wrapped into
[-180,180], and moves the azimuth by min(|difference|, degrees) in that
direction without ever overshooting: the remaining angular distance to the
target after the move is exactly |difference| - min(|difference|, degrees),
hence nonnegative. In particular a light at azimuth 190 moved toward
target 200 lands exactly on azimuth 200, both with degrees = 10 and with
degrees = 50. -/
theorem c4_moveTowardDirection :
    (∀ cur target degrees : ℝ, 0 ≤ cur → cur < 360 → 0 ≤ target → target < 360 →
      0 ≤ degrees →
      |signedShortestDiff target (moveTowardAzimuth cur target degrees)|
        = |signedShortestDiff target cur| - min |signedShortestDiff target cur| degrees) ∧
    (getPositionSpherical (moveTowardDirection lightAz190 200 10 camForward0 camRight0)
        camForward0 camRight0).azimuth = 200 ∧
    (getPositionSpherical (moveTowardDirection lightAz190 200 50 camForward0 camRight0)
        camForward0 camRight0).azimuth = 200 :=
  ⟨fun cur target degrees hc0 hc1 ht0 ht1 hdeg =>
      moveTowardAzimuth_no_overshoot cur target degrees hc0 hc1 ht0 ht1 hdeg,
   moveToward_land_200 10 (by norm_num),
   moveToward_land_200 50 (by norm_num)⟩

/-- Claim C4, witness: the no-overshoot law instantiated at current
azimuth 190, target 200, degrees 10. -/
theorem c4_moveTowardDirection_witness :
    |signedShortestDiff 200 (moveTowardAzimuth 190 200 10)|
      = |signedShortestDiff 200 190| - min |signedShortestDiff 200 190| 10 :=
  c4_moveTowardDirection.1 190 200 10 (by norm_num) (by norm_num) (by norm_num)
    (by norm_num) (by norm_num)

/-- Claim C10, witness: a light at the pivot, azimuth 0, elevation 0 with
the application camera ends up at distance exactly 1. -/
theorem c10_pivot_reset_distance_witness :
    vlength lightAtPivot.position < 0.0001 ∧
    vlength ((setPositionSpherical lightAtPivot 0 0 camForward0 camRight0).position) = 1 := by
  have hp : vlength lightAtPivot.position < 0.0001 := by
    rw [show lightAtPivot.position = (⟨0, 0, 0⟩ : Vec3) from rfl, vlength_zero_vec]
    norm_num
  exact ⟨hp, (c10_pivot_reset_distance lightAtPivot 0 0 camForward0 camRight0
    orthonormal_cam0 hp).2⟩

/-! ## Claim C6: camera clamping -/

theorem clampDistance_bounds (v : ℝ) :
    minDistance ≤ clampDistance v ∧ clampDistance v ≤ maxDistance := by
  unfold clampDistance minDistance maxDistance
  exact ⟨le_max_left _ _, max_le (by norm_num) (min_le_left _ _)⟩

theorem clampFOV_bounds (v : ℝ) : minFOV ≤ clampFOV v ∧ clampFOV v ≤ maxFOV := by
  unfold clampFOV minFOV maxFOV
  exact ⟨le_max_left _ _, max_le (by norm_num) (min_le_left _ _)⟩

theorem camInvariant_setz (s : CameraState) (v : ℝ) (h : camInvariant s) :
    camInvariant { s with z := clampDistance v } := by
  obtain ⟨_, _, h3, h4⟩ := h
  exact ⟨(clampDistance_bounds v).1, (clampDistance_bounds v).2, h3, h4⟩

theorem camInvariant_setzoom (s : CameraState) (v : ℝ) (h : camInvariant s) :
    camInvariant { s with zoom := clampFOV v } := by
  obtain ⟨h1, h2, _, _⟩ := h
  exact ⟨h1, h2, (clampFOV_bounds v).1, (clampFOV_bounds v).2⟩

theorem applyCamOp_invariant (s : CameraState) (op : CamOp) (h : camInvariant s) :
    camInvariant (applyCamOp s op) := by
  cases op with
  | dollyCamera d => exact camInvariant_setz s _ h
  | dollyCameraIn a => cases a <;> exact camInvariant_setz s _ h
  | dollyCameraOut a => cases a <;> exact camInvariant_setz s _ h
  | setCameraFOV v => exact camInvariant_setzoom s _ h
  | increaseCameraFOV a => cases a <;> exact camInvariant_setzoom s _ h
  | decreaseCameraFOV a => cases a <;> exact camInvariant_setzoom s _ h
  | wheel d sh =>
    cases sh
    · exact camInvariant_setz s _ h
    · exact camInvariant_setzoom s _ h
  | pinchStart x1 y1 x2 y2 => exact h
  | pinchUpdate x1 y1 x2 y2 => exact camInvariant_setz s _ h

theorem camInvariant_foldl (ops : List CamOp) :
    ∀ s : CameraState, camInvariant s → camInvariant (List.foldl applyCamOp s ops) := by
  induction ops with
  | nil => exact fun s h => h
  | cons op rest ih => exact fun s h => ih _ (applyCamOp_invariant s op h)

theorem camInvariant_initial : camInvariant camInitial := by
  unfold camInvariant camInitial minDistance maxDistance minFOV maxFOV
  norm_num

/-- Claim C6. Starting from the freshly constructed camera controller,
every sequence of camera operations (dollyCamera, dollyCameraIn/Out,
setCameraFOV, increase/decreaseCameraFOV, wheel, pinch) keeps the camera
distance within the configured [8, 64] and the zoom within the configured
[0.5, 5.0]; moreover dollyCamera(100) from any state yields distance
exactly 64. -/
theorem c6_camera_clamped :
    (∀ ops : List CamOp, camInvariant (List.foldl applyCamOp camInitial ops)) ∧
    (∀ s : CameraState, (dollyCamera s 100).z = 64) := by
  refine ⟨fun ops => camInvariant_foldl ops camInitial camInvariant_initial, fun s => ?_⟩
  show clampDistance 100 = 64
  unfold clampDistance minDistance maxDistance
  rw [min_eq_left (by norm_num : (64 : ℝ) ≤ 100), max_eq_right (by norm_num : (8 : ℝ) ≤ 64)]

/-- Claim C6, witness: dollying to 100 and doubly wheeling keeps the state
clamped, and the clamped distance is exactly 64. -/
theorem c6_camera_clamped_witness :
    camInvariant (List.foldl applyCamOp camInitial
      [CamOp.dollyCamera 100, CamOp.wheel 1 false, CamOp.wheel (-3) true]) ∧
    (dollyCamera camInitial 100).z = 64 :=
  ⟨c6_camera_clamped.1 [CamOp.dollyCamera 100, CamOp.wheel 1 false, CamOp.wheel (-3) true],
   c6_camera_clamped.2 camInitial⟩

/-! ## Claim C7: the lookAt invariant -/

theorem facesTarget_applyLookAt (s : LightState) : facesTarget (applyLookAt s) := ⟨rfl, rfl⟩

theorem applyLightOp_faces (s : LightState) (op : LightOp) : facesTarget (applyLightOp s op) := by
  cases op <;> exact facesTarget_applyLookAt _

/-- Claim C7. Every position mutation of a light (setPositionSpherical,
setDistance, setPositionCartesian, dolly, rotate, the clockwise and
counterclockwise rotations, the elevation nudges and moveTowardDirection)
re-applies the lookAt call toward the configured fixed target point, so
after any sequence of mutations applied to either freshly constructed
light, the light is oriented from its current world position toward the
configured target: the lookAt invariant holds after every mutation, not
just at construction. -/
theorem c7_lookAt_invariant :
    ∀ ops : List LightOp,
      facesTarget (List.foldl applyLightOp keyLightInitial ops) ∧
      facesTarget (List.foldl applyLightOp fillLightInitial ops) := by
  have hstep : ∀ (ops : List LightOp) (s0 : LightState), facesTarget s0 →
      facesTarget (List.foldl applyLightOp s0 ops) := by
    intro ops
    induction ops with
    | nil => exact fun s0 h => h
    | cons op rest ih => exact fun s0 _ => ih _ (applyLightOp_faces s0 op)
  exact fun ops => ⟨hstep ops _ (facesTarget_applyLookAt _),
    hstep ops _ (facesTarget_applyLookAt _)⟩

/-- Claim C7, witness: the invariant after a dolly followed by a drag
rotation and a spherical reposition on the key light. -/
theorem c7_lookAt_invariant_witness :
    facesTarget (List.foldl applyLightOp keyLightInitial
      [LightOp.dolly 1, LightOp.rotate 0.3 0.1,
       LightOp.setSpherical 90 45 camForward0 camRight0]) :=
  (c7_lookAt_invariant
    [LightOp.dolly 1, LightOp.rotate 0.3 0.1,
     LightOp.setSpherical 90 45 camForward0 camRight0]).1

/-! ## Claim C8: hover and mode machine -/

theorem hoverInvariant_canonical (h : Option LightId) : hoverInvariant (hoverCanonical h) := by
  rcases h with _ | l
  · unfold hoverInvariant hoverCanonical
    refine ⟨?_, ?_, ?_⟩ <;> simp
  · rcases l with _ | _ <;>
      (unfold hoverInvariant hoverCanonical
       refine ⟨?_, ?_, ?_⟩ <;> simp)

theorem updateAreaLightHover_canonical (s : HoverState) (hs : hoverInvariant s)
    (h : Option LightId) : updateAreaLightHover s h = hoverCanonical h := by
  obtain ⟨ms, cs, ks, fs⟩ := s
  obtain ⟨h1, h2, h3⟩ := hs
  simp only at h1 h2 h3
  by_cases he : h = cs
  · subst he
    unfold updateAreaLightHover
    rw [if_pos rfl]
    unfold hoverCanonical
    rcases h with _ | l
    · have hm : ms = InteractionMode.MODEL_ROTATION := by
        cases ms
        · rfl
        · exact absurd (h1.mp rfl) (by simp)
      have hk : ks = false := by
        cases ks
        · rfl
        · exact absurd (h2.mp rfl) (by simp)
      have hf : fs = false := by
        cases fs
        · rfl
        · exact absurd (h3.mp rfl) (by simp)
      rw [hm, hk, hf]
    · have hm : ms = InteractionMode.AREA_LIGHT_MANIPULATION := h1.mpr (by simp)
      rcases l with _ | _
      · have hk : ks = true := h2.mpr rfl
        have hf : fs = false := by
          cases fs
          · rfl
          · exact absurd (h3.mp rfl) (by simp)
        rw [hm, hk, hf]
      · have hk : ks = false := by
          cases ks
          · rfl
          · exact absurd (h2.mp rfl) (by simp)
        have hf : fs = true := h3.mpr rfl
        rw [hm, hk, hf]
  · unfold updateAreaLightHover
    rw [if_neg he]
    rcases cs with _ | l <;> rcases h with _ | l2
    · exact absurd rfl he
    · have hk : ks = false := by
        cases ks
        · rfl
        · exact absurd (h2.mp rfl) (by simp)
      have hf : fs = false := by
        cases fs
        · rfl
        · exact absurd (h3.mp rfl) (by simp)
      subst hk
      subst hf
      rcases l2 with _ | _ <;> rfl
    · rcases l with _ | _
      · have hf : fs = false := by
          cases fs
          · rfl
          · exact absurd (h3.mp rfl) (by simp)
        subst hf
        rfl
      · have hk : ks = false := by
          cases ks
          · rfl
          · exact absurd (h2.mp rfl) (by simp)
        subst hk
        rfl
    · rcases l with _ | _ <;> rcases l2 with _ | _ <;>
        first
          | exact absurd rfl he
          | rfl

/-- Claim C8. After every hover-update step: the currently hovered light
becomes exactly the result of the pick-proxy ray test; on a hit the mode
becomes AREA_LIGHT_MANIPULATION and exactly the hit light is highlighted
(any previously highlighted light is unhighlighted); on a miss the mode
becomes MODEL_ROTATION and no light is highlighted. Consequently, in every
reachable state at most one light is highlighted and the mode is
AREA_LIGHT_MANIPULATION exactly when a light is hovered. -/
theorem c8_hover_mode :
    ∀ hits : List (Option LightId),
      hoverInvariant (List.foldl updateAreaLightHover hoverInitial hits) ∧
      ∀ h : Option LightId,
        (updateAreaLightHover (List.foldl updateAreaLightHover hoverInitial hits)
            h).currentHoveredAreaLight = h ∧
        (h = none →
          (updateAreaLightHover (List.foldl updateAreaLightHover hoverInitial hits) h).mode
              = InteractionMode.MODEL_ROTATION ∧
          (updateAreaLightHover (List.foldl updateAreaLightHover hoverInitial hits)
              h).keyHighlighted = false ∧
          (updateAreaLightHover (List.foldl updateAreaLightHover hoverInitial hits)
              h).fillHighlighted = false) ∧
        (∀ l : LightId, h = some l →
          (updateAreaLightHover (List.foldl updateAreaLightHover hoverInitial hits) h).mode
              = InteractionMode.AREA_LIGHT_MANIPULATION ∧
          ((updateAreaLightHover (List.foldl updateAreaLightHover hoverInitial hits)
              h).keyHighlighted = true ↔ l = LightId.key) ∧
          ((updateAreaLightHover (List.foldl updateAreaLightHover hoverInitial hits)
              h).fillHighlighted = true ↔ l = LightId.fill)) := by
  have hinv : ∀ hits : List (Option LightId),
      hoverInvariant (List.foldl updateAreaLightHover hoverInitial hits) := by
    intro hits
    have hstep : ∀ (hits : List (Option LightId)) (s : HoverState), hoverInvariant s →
        hoverInvariant (List.foldl updateAreaLightHover s hits) := by
      intro hits
      induction hits with
      | nil => exact fun s h => h
      | cons hit rest ih =>
        intro s hs
        have : updateAreaLightHover s hit = hoverCanonical hit :=
          updateAreaLightHover_canonical s hs hit
        rw [List.foldl_cons, this]
        exact ih _ (hoverInvariant_canonical hit)
    exact hstep hits hoverInitial (by unfold hoverInvariant hoverInitial; refine ⟨?_, ?_, ?_⟩ <;> simp)
  intro hits
  refine ⟨hinv hits, fun h => ?_⟩
  rw [updateAreaLightHover_canonical _ (hinv hits) h]
  rcases h with _ | l
  · exact ⟨rfl, fun _ => ⟨rfl, rfl, rfl⟩, fun l hl => absurd hl (by simp)⟩
  · refine ⟨rfl, fun hl => absurd hl (by simp), fun l2 hl => ?_⟩
    have hll : l = l2 := by injection hl
    subst hll
    rcases l with _ | _ <;> exact ⟨rfl, by decide, by decide⟩

/-- Claim C8, witness: hovering the key light after hovering the fill
light makes the key light the single hover target. -/
theorem c8_hover_mode_witness :
    (updateAreaLightHover
        (List.foldl updateAreaLightHover hoverInitial [some LightId.fill])
        (some LightId.key)).currentHoveredAreaLight = some LightId.key ∧
    (updateAreaLightHover
        (List.foldl updateAreaLightHover hoverInitial [some LightId.fill])
        (some LightId.key)).mode = InteractionMode.AREA_LIGHT_MANIPULATION :=
  ⟨((c8_hover_mode [some LightId.fill]).2 (some LightId.key)).1,
   (((c8_hover_mode [some LightId.fill]).2 (some LightId.key)).2.2 LightId.key rfl).1⟩

/-! ## Claim C5: unknown remote command -/

/-- Claim C5. Dispatching a remote command whose type string is not in the
handler table, such as doSomethingUnknown, logs a warning and is otherwise
a no-op: the application state is returned unchanged, no outbound state
snapshot is produced, and the dispatch function returns normally, so no
exception propagates to the caller. -/
theorem c5_unknown_command (s : AppState) :
    handleWebSocketCommand s { type := "doSomethingUnknown" }
      = (s, none, ["Unknown command type: doSomethingUnknown"]) := by
  have hl : commandHandlers.lookup "doSomethingUnknown"
      = (none : Option (AppState → Command → AppState)) := by rfl
  unfold handleWebSocketCommand
  rw [hl]
  rfl

/-- Claim C5, witness: the unknown command leaves the sample application
state untouched and produces no snapshot. -/
theorem c5_unknown_command_witness :
    handleWebSocketCommand appSample { type := "doSomethingUnknown" }
      = (appSample, none, ["Unknown command type: doSomethingUnknown"]) :=
  c5_unknown_command appSample

/-! ## Claim C9: control methods before full wiring -/

/-- Claim C9. The claim states that every control method invoked before
full wiring is a defensive no-op and every query returns its documented
default. The light queries do behave this way (getKeyLightPositionSpherical
returns the zero triple), but the camera control methods guard on
this.camera, which is already set in the constructor, and then call
through this.cameraController, which is only attached later by
Application.init: dollyCamera invoked in that window dereferences
undefined and throws a TypeError instead of no-opping. -/
theorem c9_dollyCamera_throws_before_wiring :
    smDollyCamera smPreInit 10
        = Except.error "TypeError: this.cameraController is undefined" ∧
    smGetCameraDistance smPreInit
        = Except.error "TypeError: this.cameraController is undefined" ∧
    smGetKeyLightPositionSpherical smPreInit = ⟨0, 0, 0⟩ :=
  ⟨rfl, rfl, rfl⟩

end

end Hello3D
